import Mathlib

/-!
Shallow embedding of the semantic core of the AIDL compiler
(aidl_language.cpp): AST nodes, the annotation framework, type-specifier
resolution and validation, member declarations, per-declaration-kind
validators, and document-level validation.

Conventions of the embedding:
- C++ functions returning bool while emitting diagnostics through the
  global AIDL_ERROR sink are modelled as pure functions returning the
  bool together with the list of diagnostics emitted during the call, in
  emission order.  Non-fatal advisories (DiagnosticsContext::Report) are
  returned in a separate list.
- Diagnostics are structured values carrying the data interpolated into
  the corresponding C++ message, not the rendered message text.
- External collaborators (the type-name table AidlTypenames from
  aidl_typenames.cpp and the constant-value engine from
  aidl_constantvalue.cpp, both outside this translation unit) are
  modelled as an explicit environment of functions, passed to every
  validation routine that consults them.
- The class AidlAnnotation is rendered here as AidlAnnot because the
  source name is not available in this development.
-/

/-- Source location of an AST node (aidl_language.h / AidlLocation).
The begin and end points carry line and column numbers. -/
structure AidlLocation where
  file : String
  beginLine : Nat
  beginCol : Nat
  endLine : Nat
  endCol : Nat
deriving DecidableEq, Repr

/-- The synthesized location AIDL_LOCATION_HERE used for internal nodes. -/
def locHere : AidlLocation := ⟨"", 0, 0, 0, 0⟩

/-- Structured hard-error diagnostics.  Each constructor corresponds to one
AIDL_ERROR site in aidl_language.cpp and carries the data interpolated
into that message. -/
inductive Diag where
  | unsupportedParameter (paramName : String) (annotName : String)
  | refNotAllowed (fieldName : String)
  | invalidParamValue (paramName : String) (annotName : String)
  | missingRequiredParam (paramName : String) (annotName : String)
  | annotNotSupportedHere (annotName : String)
  | duplicateAnnot (annotName : String) (previous : AidlLocation)
  | genericPrimitiveParam
  | listParamCount (sig : String)
  | listUnsupported (containedName : String)
  | mapParamCount (sig : String)
  | mapKeyNotString (keyName : String)
  | wrongGenericArity (name : String) (allowed : Nat) (got : Nat)
  | notGeneric (name : String)
  | utf8Restriction
  | voidRestriction
  | binderArray
  | parcelableHolderArray
  | nullablePrimitive
  | nullableEnum
  | nullableParcelableHolder
  | voidDeclaration (name : String)
  | duplicateFieldName (typeName : String) (fieldName : String)
  | nonImmutableField (typeName : String) (fieldName : String)
  | duplicateConstantName (name : String)
  | constTypeNotSupported (sig : String)
  | duplicateGetterName (typeName : String) (fieldName : String)
  | nonFixedSizeField (typeName : String) (fieldName : String)
  | duplicateTypeParameter
  | unionParcelableHolderMember (fieldName : String)
  | unionNoFields (name : String)
  | unionFirstMemberEnumNoDefault
  | unionFirstMemberArrayNoDefault
  | enumMissingBackingType
  | enumeratorTypeDiffers (name : String)
  | invalidBackingType (name : String)
  | parcelableHolderReturn
  | onewayNonVoid (methodName : String)
  | duplicateArgumentName (methodName : String) (argName : String)
  | parcelableHolderArgument
  | onewayOutParam (methodName : String)
  | mustDeclareDirection (sig : String)
  | cannotBeOutParameter (argName : String) (typeAspect : String)
  | argNameKeyword
  | argNameReservedAidl
  | redefineMethod (methodName : String)
  | previouslyDefinedHere (previous : AidlLocation)
  | reservedMethod (sig : String)
deriving DecidableEq, Repr

/-- Non-fatal advisory diagnostics (DiagnosticsContext::Report channel). -/
inductive Advisory where
  | enumZero (loc : AidlLocation) (enumeratorName : String) (value : String)
  | inoutParameter (loc : AidlLocation) (argName : String)
  | interfaceNameShouldStartWithI (loc : AidlLocation)
deriving DecidableEq, Repr

/-- Outcome of a validation pass that can emit both hard errors and
advisories. -/
structure CheckOutcome where
  ok : Bool
  errors : List Diag
  advisories : List Advisory
deriving DecidableEq, Repr

/-- The annotation kinds of the fixed registry (AidlAnnotation::Type). -/
inductive AnnotKind where
  | nullable
  | utf8InCpp
  | sensitiveData
  | vintfStability
  | unsupportedAppUsage
  | javaStableParcelable
  | hide
  | backing
  | javaPassthrough
  | javaDerive
  | javaOnlyImmutable
  | fixedSize
  | descriptor
  | rustDerive
deriving DecidableEq, BEq, Repr

/-- Declared type of an annotation parameter.  The registry only ever uses
the four static specifiers kStringType, kIntType, kLongType, kBooleanType
(aidl_language.cpp lines 112-115), so the parameter type is represented by
this closed enumeration; staticSpec below rebuilds the corresponding
specifier when a rendering call needs it. -/
inductive AidlParamType where
  | stringType
  | intType
  | longType
  | booleanType
deriving DecidableEq, BEq, Repr

/-- One entry of the process-wide annotation schema registry
(AidlAnnotation::Schema). -/
structure AidlSchema where
  kind : AnnotKind
  name : String
  supportedParameters : List (String × AidlParamType)
  repeatable : Bool
  requiredParameters : List String := []
deriving DecidableEq, Repr

/-- The fixed closed schema registry (AidlAnnotation::AllSchemas,
aidl_language.cpp lines 117-158).  The parameter maps are listed in the
name-sorted order in which the C++ std::map iterates them. -/
def AllSchemas : List AidlSchema :=
  [ ⟨.nullable, "nullable", [], false, []⟩,
    ⟨.utf8InCpp, "utf8InCpp", [], false, []⟩,
    ⟨.sensitiveData, "SensitiveData", [], false, []⟩,
    ⟨.vintfStability, "VintfStability", [], false, []⟩,
    ⟨.unsupportedAppUsage, "UnsupportedAppUsage",
      [("expectedSignature", .stringType), ("implicitMember", .stringType),
       ("maxTargetSdk", .intType), ("publicAlternatives", .stringType),
       ("trackingBug", .longType)], false, []⟩,
    ⟨.javaStableParcelable, "JavaOnlyStableParcelable", [], false, []⟩,
    ⟨.hide, "Hide", [], false, []⟩,
    ⟨.backing, "Backing", [("type", .stringType)], false, ["type"]⟩,
    ⟨.javaPassthrough, "JavaPassthrough", [("annotation", .stringType)], true,
      ["annotation"]⟩,
    ⟨.javaDerive, "JavaDerive",
      [("equals", .booleanType), ("toString", .booleanType)], false, []⟩,
    ⟨.javaOnlyImmutable, "JavaOnlyImmutable", [], false, []⟩,
    ⟨.fixedSize, "FixedSize", [], false, []⟩,
    ⟨.descriptor, "Descriptor", [("value", .stringType)], false, ["value"]⟩,
    ⟨.rustDerive, "RustDerive",
      [("Clone", .booleanType), ("Copy", .booleanType), ("Eq", .booleanType),
       ("Hash", .booleanType), ("Ord", .booleanType),
       ("PartialEq", .booleanType), ("PartialOrd", .booleanType)], false, []⟩ ]

/-- Constant-value expression trees (AidlConstantValue and its subclasses,
declared in aidl_language.h; evaluation lives in the external
constant-value engine).  The constructors mirror the node kinds the
visitor distinguishes; integral mirrors AidlConstantValue::Integral and
other stands for any further literal kind, tagged so distinct featureless
values exist. -/
inductive AidlConstVal where
  | integral (loc : AidlLocation) (value : String)
  | other (tag : Nat)
  | unary (loc : AidlLocation) (op : String) (operand : AidlConstVal)
  | binary (loc : AidlLocation) (lhs : AidlConstVal) (op : String) (rhs : AidlConstVal)
  | ref (loc : AidlLocation) (fieldName : String) (comments : String)
deriving DecidableEq, Repr

/-- Modelled from the spec: the Accept visitor hook of the external
constant-value engine walks the expression tree in one pass; combined
with ConstReferenceFinder (aidl_language.cpp lines 201-209) it yields the
first AidlConstantReference found, if any. -/
def firstRef : AidlConstVal → Option String
  | .integral _ _ => none
  | .other _ => none
  | .unary _ _ operand => firstRef operand
  | .binary _ lhs _ rhs =>
    match firstRef lhs with
    | some f => some f
    | none => firstRef rhs
  | .ref _ fieldName _ => some fieldName

/-- An annotation instance (class AidlAnnotation in the source): its
location, the schema it was parsed against, and the supplied parameter
map.  The parameter list stands for the C++ std::map and is kept in its
name-sorted iteration order. -/
structure AidlAnnot where
  location : AidlLocation
  schema : AidlSchema
  parameters : List (String × AidlConstVal)
deriving DecidableEq, Repr

/-- A (possibly generic, possibly array) type reference
(class AidlTypeSpecifier).  fullyQualifiedName is the empty string until
Resolve succeeds, matching the C++ empty-string sentinel; definedTypeRef
models the non-owning pointer to the resolved declaration by its canonical
name.  The node is an inductive rather than a structure because the type
parameter list nests the type in itself. -/
inductive AidlTypeSpecifier : Type where
  | mk (location : AidlLocation) (unresolvedName : String) (isArray : Bool)
       (typeParameters : Option (List AidlTypeSpecifier)) (comments : String)
       (annotations : List AidlAnnot) (fullyQualifiedName : String)
       (definedTypeRef : Option String)
deriving Repr

def AidlTypeSpecifier.location : AidlTypeSpecifier → AidlLocation
  | .mk l _ _ _ _ _ _ _ => l

def AidlTypeSpecifier.unresolvedName : AidlTypeSpecifier → String
  | .mk _ n _ _ _ _ _ _ => n

def AidlTypeSpecifier.IsArray : AidlTypeSpecifier → Bool
  | .mk _ _ arr _ _ _ _ _ => arr

def AidlTypeSpecifier.typeParameters : AidlTypeSpecifier → Option (List AidlTypeSpecifier)
  | .mk _ _ _ tp _ _ _ _ => tp

def AidlTypeSpecifier.comments : AidlTypeSpecifier → String
  | .mk _ _ _ _ c _ _ _ => c

def AidlTypeSpecifier.annotations : AidlTypeSpecifier → List AidlAnnot
  | .mk _ _ _ _ _ a _ _ => a

def AidlTypeSpecifier.fullyQualifiedName : AidlTypeSpecifier → String
  | .mk _ _ _ _ _ _ fq _ => fq

def AidlTypeSpecifier.definedTypeRef : AidlTypeSpecifier → Option String
  | .mk _ _ _ _ _ _ _ d => d

/-- AidlParameterizable::IsGeneric: a specifier is generic iff it carries a
type-parameter list. -/
def AidlTypeSpecifier.IsGeneric (t : AidlTypeSpecifier) : Bool :=
  t.typeParameters.isSome

/-- GetTypeParameters, defaulting to the empty list for the non-generic
case (the C++ caller only reads it under IsGeneric). -/
def AidlTypeSpecifier.GetTypeParameters (t : AidlTypeSpecifier) : List AidlTypeSpecifier :=
  t.typeParameters.getD []

/-- Modelled from the spec: IsResolved (declared in aidl_language.h) holds
once Resolve has stored a canonical dotted name; the empty string is the
unresolved sentinel. -/
def AidlTypeSpecifier.IsResolved (t : AidlTypeSpecifier) : Bool :=
  t.fullyQualifiedName ≠ ""

/-- Modelled from the spec: GetName (declared in aidl_language.h) returns
the canonical dotted name once resolved and the unresolved name before
that. -/
def AidlTypeSpecifier.GetName (t : AidlTypeSpecifier) : String :=
  if t.IsResolved then t.fullyQualifiedName else t.unresolvedName

mutual
/-- AidlTypeSpecifier::Signature (aidl_language.cpp lines 452-465): the
name, the comma-joined signatures of the type parameters in angle
brackets when generic, and the array suffix. -/
def AidlTypeSpecifier.Signature : AidlTypeSpecifier → String
  | .mk l un arr tps c a fq d =>
    let t : AidlTypeSpecifier := .mk l un arr tps c a fq d
    let base := t.GetName
    let gen :=
      match tps with
      | none => ""
      | some ps => "<" ++ String.intercalate "," (signatureList ps) ++ ">"
    base ++ gen ++ (if arr then "[]" else "")

def signatureList : List AidlTypeSpecifier → List String
  | [] => []
  | t :: ts => t.Signature :: signatureList ts
end

/-- The four static type specifiers used as declared parameter types by
the schema registry (kStringType, kIntType, kLongType, kBooleanType). -/
def staticSpec : AidlParamType → AidlTypeSpecifier
  | .stringType => .mk locHere "String" false none "" [] "" none
  | .intType => .mk locHere "int" false none "" [] "" none
  | .longType => .mk locHere "long" false none "" [] "" none
  | .booleanType => .mk locHere "boolean" false none "" [] "" none

/-- Category of a defined type registered in the external type-name
table, as observed through the downcast probes AsInterface,
AsEnumDeclaration and AsParameterizable.  The parcelable-family kinds
carry their declared type-parameter list (AidlParameterizable of string),
present iff the declaration is generic. -/
inductive AidlDefinedKind where
  | parcelableKind (typeParams : Option (List String))
  | structuredKind (typeParams : Option (List String))
  | unionKind (typeParams : Option (List String))
  | enumKind
  | interfaceKind
deriving DecidableEq, BEq, Repr

def AidlDefinedKind.isInterfaceKind : AidlDefinedKind → Bool
  | .interfaceKind => true
  | _ => false

def AidlDefinedKind.isEnumKind : AidlDefinedKind → Bool
  | .enumKind => true
  | _ => false

/-- AsParameterizable combined with IsGeneric: the parcelable-family kinds
are parameterizable and are generic when they declare type parameters. -/
def AidlDefinedKind.isGenericParameterizable : AidlDefinedKind → Bool
  | .parcelableKind (some _) => true
  | .structuredKind (some _) => true
  | .unionKind (some _) => true
  | _ => false

/-- Number of type parameters a generic user-defined declaration expects. -/
def AidlDefinedKind.typeParamCount : AidlDefinedKind → Nat
  | .parcelableKind (some ps) => ps.length
  | .structuredKind (some ps) => ps.length
  | .unionKind (some ps) => ps.length
  | _ => 0

/-- The external collaborators of this translation unit, modelled as an
explicit environment: the type-name table AidlTypenames (ResolveTypename,
TryGetDefinedType, the static name classifiers, and the capability
predicates) and the constant-value engine (CheckValid, ValueString with
the AidlConstantValueDecorator baked in, the string evaluation behind
ParamValue, and the synthesized Default value of a type). -/
structure Env where
  ResolveTypename : String → Option (String × Option String)
  TryGetDefinedType : String → Option AidlDefinedKind
  IsPrimitiveTypename : String → Bool
  IsBuiltinTypename : String → Bool
  CanBeJavaOnlyImmutable : AidlTypeSpecifier → Bool
  CanBeFixedSize : AidlTypeSpecifier → Bool
  CanBeOutParameter : AidlTypeSpecifier → Bool × String
  cvCheckValid : AidlConstVal → Bool
  cvValueString : AidlConstVal → AidlTypeSpecifier → String
  cvStringValue : AidlConstVal → String
  cvDefault : AidlTypeSpecifier → Option AidlConstVal

/-- Modelled from the spec: AidlTypenames::GetEnumDeclaration probes
whether the specifier names an enum declaration in the table. -/
def Env.GetEnumDeclaration (env : Env) (t : AidlTypeSpecifier) : Bool :=
  match env.TryGetDefinedType t.GetName with
  | some k => k.isEnumKind
  | none => false

/-- Modelled from the spec: AidlTypenames::GetInterface probes whether the
specifier names an interface in the table. -/
def Env.GetInterface (env : Env) (t : AidlTypeSpecifier) : Bool :=
  match env.TryGetDefinedType t.GetName with
  | some k => k.isInterfaceKind
  | none => false

/-- Check of one supplied annotation parameter, corresponding to one
iteration of the loop in AidlAnnotation::CheckValid (lines 212-250):
the name must be in the schema, the value must not contain a constant
reference, the value must itself be valid, and it must render to a
non-empty string for its declared type. -/
def AidlAnnot.paramViolation (env : Env) (a : AidlAnnot)
    (p : String × AidlConstVal) : Option Diag :=
  match a.schema.supportedParameters.lookup p.1 with
  | none => some (Diag.unsupportedParameter p.1 a.schema.name)
  | some pt =>
    match firstRef p.2 with
    | some fieldName => some (Diag.refNotAllowed fieldName)
    | none =>
      if env.cvCheckValid p.2 = false then
        some (Diag.invalidParamValue p.1 a.schema.name)
      else if env.cvValueString p.2 (staticSpec pt) == "" then
        some (Diag.invalidParamValue p.1 a.schema.name)
      else
        none

/-- The parameter loop of AidlAnnotation::CheckValid: each parameter is
checked in map order; the first violation is diagnosed and the whole call
returns false immediately. -/
def AidlAnnot.paramsCheck (env : Env) (a : AidlAnnot) :
    List (String × AidlConstVal) → Option Diag
  | [] => none
  | p :: rest =>
    match a.paramViolation env p with
    | some d => some d
    | none => a.paramsCheck env rest

/-- The required-parameter names that were not supplied. -/
def AidlAnnot.missingRequired (a : AidlAnnot) : List String :=
  a.schema.requiredParameters.filter (fun r => (a.parameters.lookup r).isNone)

/-- AidlAnnotation::CheckValid (aidl_language.cpp lines 211-259): the
supplied parameters are checked in order with an early false return at
the first violation; if they all pass, every missing required parameter
is diagnosed and the call succeeds iff none is missing. -/
def AidlAnnot.CheckValid (env : Env) (a : AidlAnnot) : Bool × List Diag :=
  match a.paramsCheck env a.parameters with
  | some d => (false, [d])
  | none =>
    (a.missingRequired.isEmpty,
     a.missingRequired.map (fun r => Diag.missingRequiredParam r a.schema.name))

/-- GetAnnotation (aidl_language.cpp lines 301-311): first attached
instance of the given kind.  The AIDL_FATAL_IF on a repeatable kind is
not modelled: every call site asks for a kind whose registry schema is
non-repeatable. -/
def getAnnot (annots : List AidlAnnot) (k : AnnotKind) : Option AidlAnnot :=
  annots.find? (fun a => a.schema.kind == k)

/-- Presence probe behind IsNullable, IsUtf8InCpp, IsJavaOnlyImmutable,
IsFixedSize and friends. -/
def hasAnnot (annots : List AidlAnnot) (k : AnnotKind) : Bool :=
  (getAnnot annots k).isSome

/-- First loop of AidlAnnotatable::CheckValid (lines 384-401): each
attached annotation must be of a kind supported by this node and must
itself validate; both failures return false immediately. -/
def annotsLoop (env : Env) (supported : List AnnotKind) :
    List AidlAnnot → Bool × List Diag
  | [] => (true, [])
  | a :: rest =>
    if (supported.contains a.schema.kind) = false then
      (false, [Diag.annotNotSupportedHere a.schema.name])
    else
      let r := a.CheckValid env
      if r.1 = false then (false, r.2)
      else
        let r2 := annotsLoop env supported rest
        (r2.1, r.2 ++ r2.2)

/-- Second loop of AidlAnnotatable::CheckValid (lines 403-411): scan for a
repeated non-repeatable kind; the first occurrence wins and the duplicate
is diagnosed with its location, returning false immediately. -/
def duplicatesLoop (declared : List (AnnotKind × AidlLocation)) :
    List AidlAnnot → Bool × List Diag
  | [] => (true, [])
  | a :: rest =>
    match declared.lookup a.schema.kind with
    | some prevLoc =>
      if a.schema.repeatable = false then
        (false, [Diag.duplicateAnnot a.schema.name prevLoc])
      else
        duplicatesLoop declared rest
    | none => duplicatesLoop ((a.schema.kind, a.location) :: declared) rest

/-- AidlAnnotatable::CheckValid (aidl_language.cpp lines 382-414),
parametrized by the supported-kind set the concrete node declares. -/
def AidlAnnotatable.CheckValid (env : Env) (supported : List AnnotKind)
    (annots : List AidlAnnot) : Bool × List Diag :=
  let r := annotsLoop env supported annots
  if r.1 = false then (false, r.2)
  else
    let r2 := duplicatesLoop [] annots
    (r2.1, r.2 ++ r2.2)

/-- The annotation kinds a type specifier supports
(AidlTypeSpecifier::GetSupportedAnnotations, lines 491-497). -/
def typeSpecifierSupported : List AnnotKind :=
  [.nullable, .utf8InCpp, .unsupportedAppUsage, .hide, .javaPassthrough]

def AidlTypeSpecifier.IsNullable (t : AidlTypeSpecifier) : Bool :=
  hasAnnot t.annotations .nullable

def AidlTypeSpecifier.IsUtf8InCpp (t : AidlTypeSpecifier) : Bool :=
  hasAnnot t.annotations .utf8InCpp

/-- Body of AidlTypeSpecifier::CheckValid after the annotation check
(aidl_language.cpp lines 503-616).  Every failing branch of the C++
emits exactly one diagnostic and returns false, so the body is rendered
as the first violated rule, in source order: the generic-type section,
then the utf8InCpp restriction, the void restrictions, the array
restrictions, and the nullability restrictions. -/
def typeSpecifierViolation (env : Env) (t : AidlTypeSpecifier) : Option Diag :=
  let genViolation : Option Diag :=
    if t.IsGeneric then
      let typeName := t.GetName
      let types := t.GetTypeParameters
      if (typeName == "List" || typeName == "Map") &&
          types.any (fun tp =>
            env.GetEnumDeclaration tp || env.IsPrimitiveTypename tp.GetName) then
        some Diag.genericPrimitiveParam
      else
        let definedType := env.TryGetDefinedType typeName
        let isUserDefinedGenericType :=
          match definedType with
          | some k => k.isGenericParameterizable
          | none => false
        let numParams := types.length
        if typeName == "List" then
          if numParams > 1 then some (Diag.listParamCount t.Signature)
          else
            match types with
            | [] => none
            | containedType :: _ =>
              let containedName := containedType.GetName
              if env.IsBuiltinTypename containedName then
                if containedName != "String" && containedName != "IBinder" &&
                    containedName != "ParcelFileDescriptor" then
                  some (Diag.listUnsupported containedName)
                else none
              else
                if env.GetInterface containedType then
                  some (Diag.listUnsupported containedName)
                else none
        else if typeName == "Map" then
          if numParams != 0 && numParams != 2 then
            some (Diag.mapParamCount t.Signature)
          else if numParams == 2 then
            match types with
            | keyType :: _ =>
              if keyType.GetName != "String" then
                some (Diag.mapKeyNotString keyType.GetName)
              else none
            | [] => none
          else none
        else if isUserDefinedGenericType then
          let allowed := (definedType.map AidlDefinedKind.typeParamCount).getD 0
          if numParams != allowed then
            some (Diag.wrongGenericArity typeName allowed numParams)
          else none
        else some (Diag.notGeneric typeName)
    else none
  match genViolation with
  | some d => some d
  | none =>
    let isGenericStringList :=
      t.GetName == "List" && t.IsGeneric && t.GetTypeParameters.length == 1 &&
        (match t.GetTypeParameters with
         | x :: _ => x.GetName == "String"
         | [] => false)
    if t.IsUtf8InCpp && (t.GetName != "String" && !isGenericStringList) then
      some Diag.utf8Restriction
    else if t.GetName == "void" && (t.IsArray || t.IsNullable || t.IsUtf8InCpp) then
      some Diag.voidRestriction
    else if t.IsArray &&
        (match env.TryGetDefinedType t.GetName with
         | some k => k.isInterfaceKind
         | none => false) then
      some Diag.binderArray
    else if t.IsArray && t.GetName == "ParcelableHolder" then
      some Diag.parcelableHolderArray
    else if t.IsNullable && env.IsPrimitiveTypename t.GetName && !t.IsArray then
      some Diag.nullablePrimitive
    else if t.IsNullable &&
        (match env.TryGetDefinedType t.GetName with
         | some k => k.isEnumKind
         | none => false) && !t.IsArray then
      some Diag.nullableEnum
    else if t.IsNullable && t.GetName == "ParcelableHolder" then
      some Diag.nullableParcelableHolder
    else none

/-- AidlTypeSpecifier::CheckValid (aidl_language.cpp lines 499-617):
the annotation check runs first with an early false return, then the
rule sequence of typeSpecifierViolation. -/
def AidlTypeSpecifier.CheckValid (env : Env) (t : AidlTypeSpecifier) : Bool × List Diag :=
  let r := AidlAnnotatable.CheckValid env typeSpecifierSupported t.annotations
  if r.1 = false then (false, r.2)
  else
    match typeSpecifierViolation env t with
    | some d => (false, r.2 ++ [d])
    | none => (true, r.2)

/-- AidlTypeSpecifier::Resolve (aidl_language.cpp lines 476-485).  The
AIDL_FATAL_IF on an already-resolved specifier is rendered as the none
result; otherwise the external lookup either stores the canonical name
and defined-type reference (the split-name cache follows the canonical
name and is derived in this embedding) or leaves the node untouched, and
its success is returned. -/
def AidlTypeSpecifier.Resolve (env : Env) (t : AidlTypeSpecifier) :
    Option (Bool × AidlTypeSpecifier) :=
  if t.IsResolved then none
  else
    match env.ResolveTypename t.unresolvedName with
    | some (canonical, definedType) =>
      some (true, .mk t.location t.unresolvedName t.IsArray t.typeParameters
        t.comments t.annotations canonical definedType)
    | none => some (false, t)

/-- A field or local declaration (class AidlVariableDeclaration): type,
name, optional default value, and whether that default came from the
user.  The defaultValue of a node constructed without an explicit
default is the type-synthesized AidlConstantValue::Default. -/
structure AidlVariableDeclaration where
  location : AidlLocation
  type : AidlTypeSpecifier
  name : String
  defaultUserSpecified : Bool
  defaultValue : Option AidlConstVal
deriving Repr

/-- The two-argument AidlVariableDeclaration constructor (lines 633-637):
no user default, so a default is synthesized from the type by the
external engine. -/
def AidlVariableDeclaration.mkNoDefault (env : Env) (loc : AidlLocation)
    (type : AidlTypeSpecifier) (name : String) : AidlVariableDeclaration :=
  ⟨loc, type, name, false, env.cvDefault type⟩

/-- The explicit-default AidlVariableDeclaration constructor
(lines 639-646). -/
def AidlVariableDeclaration.mkWithDefault (loc : AidlLocation)
    (type : AidlTypeSpecifier) (name : String) (value : AidlConstVal) :
    AidlVariableDeclaration :=
  ⟨loc, type, name, true, some value⟩

/-- AidlVariableDeclaration::HasUsefulDefaultValue (lines 648-657): a
default value is present, or the type is nullable (null being a valid
default everywhere). -/
def AidlVariableDeclaration.HasUsefulDefaultValue
    (v : AidlVariableDeclaration) : Bool :=
  v.defaultValue.isSome || v.type.IsNullable

/-- AidlVariableDeclaration::ValueString (lines 696-702). -/
def AidlVariableDeclaration.ValueString (env : Env)
    (v : AidlVariableDeclaration) : String :=
  match v.defaultValue with
  | some dv => env.cvValueString dv v.type
  | none => ""

/-- AidlVariableDeclaration::CheckValid (lines 659-675): the type must
validate and not be void; when a default value is present it must itself
validate and render to a non-empty string for the declared type. -/
def AidlVariableDeclaration.CheckValid (env : Env)
    (v : AidlVariableDeclaration) : Bool × List Diag :=
  let r := v.type.CheckValid env
  let voidBad := v.type.GetName == "void"
  let ds := r.2 ++ (if voidBad then [Diag.voidDeclaration v.name] else [])
  let valid := r.1 && !voidBad
  match v.defaultValue with
  | none => (valid, ds)
  | some dv =>
    let valid2 := valid && env.cvCheckValid dv
    if valid2 = false then (false, ds)
    else (!(v.ValueString env == ""), ds)

/-- AidlVariableDeclaration::GetCapitalizedName (lines 677-682): the name
with its first character upper-cased (the AIDL_FATAL_IF on an empty name
is not modelled; parser-produced members are named). -/
def AidlVariableDeclaration.GetCapitalizedName
    (v : AidlVariableDeclaration) : String :=
  v.name.capitalize

/-- Argument direction (AidlArgument::Direction). -/
inductive AidlDirection where
  | inDir
  | outDir
  | inoutDir
deriving DecidableEq, BEq, Repr

/-- Modelled from the spec: IsOut (declared in aidl_language.h) holds for
the out and inout directions. -/
def AidlDirection.IsOut : AidlDirection → Bool
  | .inDir => false
  | .outDir => true
  | .inoutDir => true

/-- Modelled from the spec: IsIn (declared in aidl_language.h) holds for
the in and inout directions. -/
def AidlDirection.IsIn : AidlDirection → Bool
  | .inDir => true
  | .outDir => false
  | .inoutDir => true

/-- A method argument (class AidlArgument): a variable declaration plus a
direction and whether the user wrote the direction explicitly. -/
structure AidlArgument where
  var : AidlVariableDeclaration
  direction : AidlDirection
  directionSpecified : Bool
deriving Repr

def AidlArgument.GetName (a : AidlArgument) : String := a.var.name

def AidlArgument.GetType (a : AidlArgument) : AidlTypeSpecifier := a.var.type

def AidlArgument.location (a : AidlArgument) : AidlLocation := a.var.location

def AidlArgument.GetDirection (a : AidlArgument) : AidlDirection := a.direction

def AidlArgument.DirectionWasSpecified (a : AidlArgument) : Bool :=
  a.directionSpecified

def AidlArgument.IsOut (a : AidlArgument) : Bool := a.direction.IsOut

/-- The explicit-direction AidlArgument constructor (lines 704-708). -/
def AidlArgument.mkWithDirection (env : Env) (loc : AidlLocation)
    (direction : AidlDirection) (type : AidlTypeSpecifier) (name : String) :
    AidlArgument :=
  ⟨AidlVariableDeclaration.mkNoDefault env loc type name, direction, true⟩

/-- The direction-less AidlArgument constructor (lines 710-714): the
direction defaults to in and is flagged unspecified. -/
def AidlArgument.mkNoDirection (env : Env) (loc : AidlLocation)
    (type : AidlTypeSpecifier) (name : String) : AidlArgument :=
  ⟨AidlVariableDeclaration.mkNoDefault env loc type name, .inDir, false⟩

/-- AidlArgument::GetDirectionSpecifier (lines 716-732): the direction
keyword when the user wrote one, empty otherwise. -/
def AidlArgument.GetDirectionSpecifier (a : AidlArgument) : String :=
  if a.directionSpecified then
    match a.direction with
    | .inDir => "in"
    | .outDir => "out"
    | .inoutDir => "inout"
  else ""

/-- A constant declaration (class AidlConstantDeclaration). -/
structure AidlConstantDeclaration where
  location : AidlLocation
  type : AidlTypeSpecifier
  name : String
  value : AidlConstVal
deriving Repr

/-- AidlConstantDeclaration::CheckValid (lines 749-762): type and value
must validate, and the type signature must be one of the supported
constant types. -/
def AidlConstantDeclaration.CheckValid (env : Env)
    (c : AidlConstantDeclaration) : Bool × List Diag :=
  let r := c.type.CheckValid env
  let valid := r.1 && env.cvCheckValid c.value
  if valid = false then (false, r.2)
  else if ["String", "byte", "int", "long"].contains c.type.Signature then
    (true, r.2)
  else (false, r.2 ++ [Diag.constTypeNotSupported c.type.Signature])

/-- A method (class AidlMethod). -/
structure AidlMethod where
  location : AidlLocation
  oneway : Bool
  comments : String
  type : AidlTypeSpecifier
  name : String
  arguments : List AidlArgument
  id : Int
  hasId : Bool
  isUserDefined : Bool
deriving Repr

/-- AidlMethod::Signature (lines 803-809): name plus the comma-joined
argument type signatures. -/
def AidlMethod.Signature (m : AidlMethod) : String :=
  m.name ++ "(" ++
    String.intercalate ", " (m.arguments.map (fun a => a.GetType.Signature)) ++ ")"

/-- IsJavaKeyword (aidl_language.cpp lines 59-71). -/
def kJavaKeywords : List String :=
  ["abstract", "assert", "boolean", "break", "byte", "case", "catch",
   "char", "class", "const", "continue", "default", "do", "double",
   "else", "enum", "extends", "final", "finally", "float", "for",
   "goto", "if", "implements", "import", "instanceof", "int", "interface",
   "long", "native", "new", "package", "private", "protected", "public",
   "return", "short", "static", "strictfp", "super", "switch", "synchronized",
   "this", "throw", "throws", "transient", "try", "void", "volatile",
   "while", "true", "false", "null"]

def IsJavaKeyword (s : String) : Bool := kJavaKeywords.contains s

/-- Field-name uniqueness loop of CheckValidWithMembers (lines 886-894):
names are inserted into a set as they are seen; every later duplicate is
diagnosed and fails the pass, but the scan continues. -/
def fieldNamesLoop (typeName : String) :
    List AidlVariableDeclaration → List String → Bool × List Diag
  | [], _ => (true, [])
  | v :: rest, seen =>
    let dup := seen.contains v.name
    let r := fieldNamesLoop typeName rest (v.name :: seen)
    ((!dup) && r.1,
     (if dup then [Diag.duplicateFieldName typeName v.name] else []) ++ r.2)

/-- Immutable-field loop of CheckValidWithMembers (lines 897-905): under
JavaOnlyImmutable every field type must satisfy the capability predicate
of the type-name table; each failure is diagnosed and the scan
continues. -/
def immutableFieldsLoop (env : Env) (typeName : String)
    (fields : List AidlVariableDeclaration) : Bool × List Diag :=
  (fields.all (fun v => env.CanBeJavaOnlyImmutable v.type),
   fields.filterMap (fun v =>
     if env.CanBeJavaOnlyImmutable v.type then none
     else some (Diag.nonImmutableField typeName v.name)))

/-- Constant loop shared by CheckValidWithMembers (lines 907-915) and
AidlInterface::CheckValid (lines 1541-1549): duplicate names are always
diagnosed, but the short-circuiting success accumulator skips the
per-constant CheckValid (and its diagnostics) once success is false. -/
def constantsLoop (env : Env) :
    List AidlConstantDeclaration → List String → Bool → Bool × List Diag
  | [], _, success => (success, [])
  | c :: rest, seen, success =>
    let dup := seen.contains c.name
    let ds1 := if dup then [Diag.duplicateConstantName c.name] else []
    let s1 := success && !dup
    let step := if s1 then c.CheckValid env else (false, [])
    let r := constantsLoop env rest (c.name :: seen) step.1
    (r.1, ds1 ++ step.2 ++ r.2)

/-- AidlDefinedType::CheckValidWithMembers (lines 878-918): every field
is validated (no short-circuit), field names must be unique, immutable
declarations need immutability-capable field types, and the constants are
checked with duplicate-name detection. -/
def CheckValidWithMembers (env : Env) (typeName : String) (immutable : Bool)
    (fields : List AidlVariableDeclaration)
    (constants : List AidlConstantDeclaration) : Bool × List Diag :=
  let fieldResults := fields.map (fun v => v.CheckValid env)
  let s1 := fieldResults.all (fun r => r.1)
  let ds1 := (fieldResults.map (fun r => r.2)).flatten
  let r2 := fieldNamesLoop typeName fields []
  let r3 := if immutable then immutableFieldsLoop env typeName fields
            else (true, [])
  let r4 := constantsLoop env constants [] (s1 && r2.1 && r3.1)
  (r4.1, ds1 ++ r2.2 ++ r3.2 ++ r4.2)

/-- AidlDefinedType::CheckValid (lines 850-858): the annotation check and
then the shared member routine, each with an early false return. -/
def AidlDefinedType.CheckValid (env : Env) (supported : List AnnotKind)
    (annots : List AidlAnnot) (typeName : String)
    (fields : List AidlVariableDeclaration)
    (constants : List AidlConstantDeclaration) : Bool × List Diag :=
  let r := AidlAnnotatable.CheckValid env supported annots
  if r.1 = false then (false, r.2)
  else
    let rm := CheckValidWithMembers env typeName
      (hasAnnot annots .javaOnlyImmutable) fields constants
    if rm.1 = false then (false, r.2 ++ rm.2)
    else (true, r.2 ++ rm.2)

/-- AidlDefinedType::CheckValidForGetterNames (lines 920-932): field
names must stay unique after capitalizing the first letter. -/
def CheckValidForGetterNames (typeName : String) :
    List AidlVariableDeclaration → List String → Bool × List Diag
  | [], _ => (true, [])
  | v :: rest, seen =>
    let cap := v.GetCapitalizedName
    let dup := seen.contains cap
    let r := CheckValidForGetterNames typeName rest (cap :: seen)
    ((!dup) && r.1,
     (if dup then [Diag.duplicateGetterName typeName v.name] else []) ++ r.2)

/-- listHasDup detects a repeated element, mirroring the size comparison
of the unordered-set check in AidlParameterizable of string. -/
def listHasDup : List String → Bool
  | [] => false
  | x :: xs => xs.contains x || listHasDup xs

/-- The string specialization of AidlParameterizable::CheckValid
(lines 959-970): when generic, the declared type parameters must be
pairwise distinct. -/
def parameterizableStringCheckValid (typeParams : Option (List String)) :
    Bool × List Diag :=
  match typeParams with
  | none => (true, [])
  | some ps =>
    if listHasDup ps then (false, [Diag.duplicateTypeParameter])
    else (true, [])

/-- An unstructured parcelable declaration (class AidlParcelable).  The
members partition of AidlDefinedType is kept as the field and constant
lists (interfaces hold the methods; a parcelable never has any). -/
structure AidlParcelable where
  location : AidlLocation
  name : String
  package : String
  comments : String
  cppHeader : String
  typeParams : Option (List String)
  annotations : List AidlAnnot
  fields : List AidlVariableDeclaration
  constants : List AidlConstantDeclaration
deriving Repr

/-- AidlParcelable::GetSupportedAnnotations (lines 972-976). -/
def parcelableSupported : List AnnotKind :=
  [.vintfStability, .unsupportedAppUsage, .javaStableParcelable, .hide,
   .javaPassthrough, .javaOnlyImmutable]

/-- The kind-generic body of AidlParcelable::CheckValid (lines 978-987):
AidlDefinedType::CheckValid with the dynamic supported-annotation set of
the concrete kind, then the type-parameter uniqueness check. -/
def parcelableCheckValidCore (env : Env) (supported : List AnnotKind)
    (name : String) (annots : List AidlAnnot)
    (fields : List AidlVariableDeclaration)
    (constants : List AidlConstantDeclaration)
    (typeParams : Option (List String)) : Bool × List Diag :=
  let r := AidlDefinedType.CheckValid env supported annots name fields constants
  if r.1 = false then (false, r.2)
  else
    let rp := parameterizableStringCheckValid typeParams
    if rp.1 = false then (false, r.2 ++ rp.2)
    else (true, r.2 ++ rp.2)

/-- AidlParcelable::CheckValid on an unstructured parcelable. -/
def AidlParcelable.CheckValid (env : Env) (p : AidlParcelable) : Bool × List Diag :=
  parcelableCheckValidCore env parcelableSupported p.name p.annotations
    p.fields p.constants p.typeParams

/-- A structured parcelable declaration (class AidlStructuredParcelable,
an AidlParcelable with an empty C++ header). -/
structure AidlStructuredParcelable where
  location : AidlLocation
  name : String
  package : String
  comments : String
  typeParams : Option (List String)
  annotations : List AidlAnnot
  fields : List AidlVariableDeclaration
  constants : List AidlConstantDeclaration
deriving Repr

/-- AidlStructuredParcelable::GetSupportedAnnotations (lines 1020-1029). -/
def structuredParcelableSupported : List AnnotKind :=
  [.vintfStability, .unsupportedAppUsage, .hide, .javaPassthrough,
   .javaDerive, .javaOnlyImmutable, .fixedSize, .rustDerive]

/-- Fixed-size field loop of AidlStructuredParcelable::CheckValid
(lines 1039-1047). -/
def fixedSizeFieldsLoop (env : Env) (typeName : String)
    (fields : List AidlVariableDeclaration) : Bool × List Diag :=
  (fields.all (fun v => env.CanBeFixedSize v.type),
   fields.filterMap (fun v =>
     if env.CanBeFixedSize v.type then none
     else some (Diag.nonFixedSizeField typeName v.name)))

/-- AidlStructuredParcelable::CheckValid (lines 1031-1057). -/
def AidlStructuredParcelable.CheckValid (env : Env)
    (s : AidlStructuredParcelable) : Bool × List Diag :=
  let r := parcelableCheckValidCore env structuredParcelableSupported s.name
    s.annotations s.fields s.constants s.typeParams
  if r.1 = false then (false, r.2)
  else
    let rf := if hasAnnot s.annotations .fixedSize then
        fixedSizeFieldsLoop env s.name s.fields
      else (true, [])
    let rg := if hasAnnot s.annotations .javaOnlyImmutable then
        CheckValidForGetterNames s.name s.fields []
      else (true, [])
    (rf.1 && rg.1, r.2 ++ rf.2 ++ rg.2)

/-- A union declaration (class AidlUnionDecl, an AidlParcelable with an
empty C++ header). -/
structure AidlUnionDecl where
  location : AidlLocation
  name : String
  package : String
  comments : String
  typeParams : Option (List String)
  annotations : List AidlAnnot
  fields : List AidlVariableDeclaration
  constants : List AidlConstantDeclaration
deriving Repr

/-- AidlUnionDecl::GetSupportedAnnotations (lines 1299-1303). -/
def unionSupported : List AnnotKind :=
  [.vintfStability, .hide, .javaPassthrough, .javaDerive,
   .javaOnlyImmutable, .rustDerive]

/-- AidlUnionDecl::CheckValid (lines 1325-1376): the parcelable pass and
the getter-name pass each return false early; then ParcelableHolder
members are diagnosed (accumulating), an empty field list returns false,
and the first field must have a useful default value, with distinct
errors for the enum and array cases. -/
def AidlUnionDecl.CheckValid (env : Env) (u : AidlUnionDecl) : Bool × List Diag :=
  let r := parcelableCheckValidCore env unionSupported u.name u.annotations
    u.fields u.constants u.typeParams
  if r.1 = false then (false, r.2)
  else
    let rg := CheckValidForGetterNames u.name u.fields []
    if rg.1 = false then (false, r.2 ++ rg.2)
    else
      let phDs := u.fields.filterMap (fun v =>
        if v.type.GetName == "ParcelableHolder" then
          some (Diag.unionParcelableHolderMember v.name)
        else none)
      let success := phDs.isEmpty
      match u.fields with
      | [] => (false, r.2 ++ rg.2 ++ phDs ++ [Diag.unionNoFields u.name])
      | first :: _ =>
        if first.HasUsefulDefaultValue = false then
          if !first.type.IsArray && env.GetEnumDeclaration first.type then
            (false, r.2 ++ rg.2 ++ phDs ++ [Diag.unionFirstMemberEnumNoDefault])
          else if first.type.IsArray then
            (false, r.2 ++ rg.2 ++ phDs ++ [Diag.unionFirstMemberArrayNoDefault])
          else (success, r.2 ++ rg.2 ++ phDs)
        else (success, r.2 ++ rg.2 ++ phDs)

/-- An enumerator (class AidlEnumerator): name, optional value expression
(null until back-filled), comments, and whether the value came from the
user. -/
structure AidlEnumerator where
  location : AidlLocation
  name : String
  value : Option AidlConstVal
  comments : String
  valueUserSpecified : Bool
deriving DecidableEq, Repr

/-- The back-fill loop of the AidlEnumDeclaration constructor
(aidl_language.cpp lines 1201-1216): an enumerator without a value gets
the literal 0 when it is the first, and otherwise the symbolic
expression previous-name + 1; previous always tracks the enumerator just
processed. -/
def fillEnumerators : Option AidlEnumerator → List AidlEnumerator →
    List AidlEnumerator
  | _, [] => []
  | previous, e :: rest =>
    let e' :=
      match e.value with
      | some _ => e
      | none =>
        match previous with
        | none =>
          { e with value := some (AidlConstVal.integral e.location "0") }
        | some p =>
          { e with value := some (AidlConstVal.binary e.location
              (AidlConstVal.ref e.location p.name "") "+"
              (AidlConstVal.integral e.location "1")) }
    e' :: fillEnumerators (some e') rest

/-- An enum declaration (class AidlEnumDeclaration).  The backing type is
null until Autofill runs. -/
structure AidlEnumDeclaration where
  location : AidlLocation
  name : String
  enumerators : List AidlEnumerator
  package : String
  comments : String
  annotations : List AidlAnnot
  backingType : Option AidlTypeSpecifier
deriving Repr

/-- The AidlEnumDeclaration constructor (lines 1192-1217): stores the
enumerator list after back-filling missing values.  Annotations are
attached by the parser through the Annotatable mixin and appear here as
an argument. -/
def mkAidlEnumDeclaration (loc : AidlLocation) (name : String)
    (enumerators : List AidlEnumerator) (package : String) (comments : String)
    (annots : List AidlAnnot) : AidlEnumDeclaration :=
  ⟨loc, name, fillEnumerators none enumerators, package, comments, annots, none⟩

/-- The string value of an annotation parameter, behind the external
AidlAnnotation::ParamValue of string used by Autofill; the none case of
the lookup is unreachable after CheckValid because the parameter is
required. -/
def annotParamString (env : Env) (a : AidlAnnot) (p : String) : String :=
  match a.parameters.lookup p with
  | some v => env.cvStringValue v
  | none => ""

/-- AidlEnumDeclaration::Autofill (lines 1219-1240): with a Backing
annotation present, the annotation must validate (early false return)
and its type parameter names the backing type; otherwise byte is the
default.  The constructed specifier is resolved manually; a failed
resolution is diagnosed but does not fail the call. -/
def AidlEnumDeclaration.Autofill (env : Env) (e : AidlEnumDeclaration) :
    Bool × List Diag × AidlEnumDeclaration :=
  match getAnnot e.annotations .backing with
  | some annot =>
    let r := annot.CheckValid env
    if r.1 = false then (false, r.2, e)
    else
      let typeName := annotParamString env annot "type"
      let bt : AidlTypeSpecifier :=
        .mk annot.location typeName false none "" [] "" none
      match bt.Resolve env with
      | some (true, bt') => (true, r.2, { e with backingType := some bt' })
      | some (false, bt') =>
        (true, r.2 ++ [Diag.invalidBackingType bt'.GetName],
         { e with backingType := some bt' })
      | none =>
        -- unreachable: the specifier was just constructed unresolved
        (true, r.2 ++ [Diag.invalidBackingType bt.GetName],
         { e with backingType := some bt })
  | none =>
    let bt : AidlTypeSpecifier := .mk locHere "byte" false none "" [] "" none
    match bt.Resolve env with
    | some (true, bt') => (true, [], { e with backingType := some bt' })
    | some (false, bt') =>
      (true, [Diag.invalidBackingType bt'.GetName],
       { e with backingType := some bt' })
    | none =>
      (true, [Diag.invalidBackingType bt.GetName],
       { e with backingType := some bt })

/-- AidlEnumerator::CheckValid (lines 1173-1185): the value must exist,
must validate, and must render non-empty under the backing type. -/
def AidlEnumerator.CheckValid (env : Env) (backing : AidlTypeSpecifier)
    (e : AidlEnumerator) : Bool × List Diag :=
  match e.value with
  | none => (false, [])
  | some v =>
    if env.cvCheckValid v = false then (false, [])
    else if env.cvValueString v backing == "" then
      (false, [Diag.enumeratorTypeDiffers e.name])
    else (true, [])

/-- AidlEnumerator::ValueString (lines 1187-1190); the none case is
unreachable after CheckValid. -/
def AidlEnumerator.ValueString (env : Env) (backing : AidlTypeSpecifier)
    (e : AidlEnumerator) : String :=
  match e.value with
  | some v => env.cvValueString v backing
  | none => ""

/-- Enumerator loop of AidlEnumDeclaration::CheckValid (lines 1260-1263):
the short-circuiting accumulator skips later enumerator checks once one
fails. -/
def enumeratorsLoop (env : Env) (backing : AidlTypeSpecifier) :
    List AidlEnumerator → Bool → Bool × List Diag
  | [], success => (success, [])
  | e :: rest, success =>
    let step := if success then e.CheckValid env backing else (false, [])
    let r := enumeratorsLoop env backing rest step.1
    (r.1, step.2 ++ r.2)

/-- AidlEnumDeclaration::GetSupportedAnnotations (lines 1242-1245). -/
def enumSupported : List AnnotKind :=
  [.vintfStability, .backing, .hide, .javaPassthrough]

/-- AidlEnumDeclaration::CheckValid (lines 1247-1279).  The member check
runs on empty member lists because the constructor never stores members;
a missing backing type and any enumerator failure return false; the
AIDL_FATAL_IF on an empty enumerator list is rendered as a silent false
(unreachable: the grammar requires at least one enumerator); finally a
first enumerator not rendering as 0 raises an advisory. -/
def AidlEnumDeclaration.CheckValid (env : Env) (e : AidlEnumDeclaration) :
    CheckOutcome :=
  let r := AidlDefinedType.CheckValid env enumSupported e.annotations e.name [] []
  if r.1 = false then ⟨false, r.2, []⟩
  else
    match e.backingType with
    | none => ⟨false, r.2 ++ [Diag.enumMissingBackingType], []⟩
    | some backing =>
      let re := enumeratorsLoop env backing e.enumerators true
      if re.1 = false then ⟨false, r.2 ++ re.2, []⟩
      else
        match e.enumerators with
        | [] => ⟨false, r.2 ++ re.2, []⟩
        | first :: _ =>
          let firstValue := first.ValueString env backing
          let adv := if firstValue != "0" then
              [Advisory.enumZero first.location first.name firstValue]
            else []
          ⟨true, r.2 ++ re.2, adv⟩

/-- An interface declaration (class AidlInterface). -/
structure AidlInterface where
  location : AidlLocation
  name : String
  comments : String
  package : String
  annotations : List AidlAnnot
  fields : List AidlVariableDeclaration
  constants : List AidlConstantDeclaration
  methods : List AidlMethod
deriving Repr

/-- AidlInterface::GetSupportedAnnotations (lines 1437-1441). -/
def interfaceSupported : List AnnotKind :=
  [.sensitiveData, .vintfStability, .unsupportedAppUsage, .hide,
   .javaPassthrough, .descriptor]

/-- The reserved framework method signatures (lines 1531-1532). -/
def reservedMethodSignatures : List String :=
  ["asBinder()", "getInterfaceHash()", "getInterfaceVersion()",
   "getTransactionName(int)"]

/-- Argument loop of AidlInterface::CheckValid (lines 1464-1519): for
each argument in order, duplicate names, type validity, the
ParcelableHolder ban, the oneway out-parameter ban, the mandatory
direction on out-capable types, the in-only restriction on non-out-capable
types, and the reserved-name rules each return false immediately; an
inout direction on a surviving argument raises an advisory. -/
def argumentsLoop (env : Env) (m : AidlMethod) :
    List AidlArgument → List String → CheckOutcome
  | [], _ => ⟨true, [], []⟩
  | arg :: rest, argNames =>
    if argNames.contains arg.GetName then
      ⟨false, [Diag.duplicateArgumentName m.name arg.GetName], []⟩
    else
      let r := arg.GetType.CheckValid env
      if r.1 = false then ⟨false, r.2, []⟩
      else if arg.GetType.GetName == "ParcelableHolder" then
        ⟨false, r.2 ++ [Diag.parcelableHolderArgument], []⟩
      else if m.oneway && arg.IsOut then
        ⟨false, r.2 ++ [Diag.onewayOutParam m.name], []⟩
      else
        let canBeOut := env.CanBeOutParameter arg.GetType
        if !arg.DirectionWasSpecified && canBeOut.1 then
          ⟨false, r.2 ++ [Diag.mustDeclareDirection arg.GetType.Signature], []⟩
        else if arg.GetDirection != AidlDirection.inDir && !canBeOut.1 then
          ⟨false, r.2 ++ [Diag.cannotBeOutParameter arg.GetName canBeOut.2], []⟩
        else if IsJavaKeyword arg.GetName then
          ⟨false, r.2 ++ [Diag.argNameKeyword], []⟩
        else if arg.GetName.startsWith "_aidl" then
          ⟨false, r.2 ++ [Diag.argNameReservedAidl], []⟩
        else
          let adv := if arg.GetDirection == AidlDirection.inoutDir then
              [Advisory.inoutParameter arg.location arg.GetName]
            else []
          let r2 := argumentsLoop env m rest (arg.GetName :: argNames)
          ⟨r2.ok, r.2 ++ r2.errors, adv ++ r2.advisories⟩

/-- Per-method body of the method loop of AidlInterface::CheckValid
(lines 1449-1537): return type validity, the ParcelableHolder return
ban, the oneway non-void ban, the argument loop, duplicate method names
(diagnosed together with the earlier definition site) and the reserved
signatures each return false immediately. -/
def methodCheck (env : Env) (methodNames : List (String × AidlLocation))
    (m : AidlMethod) : CheckOutcome :=
  let r := m.type.CheckValid env
  if r.1 = false then ⟨false, r.2, []⟩
  else if m.type.GetName == "ParcelableHolder" then
    ⟨false, r.2 ++ [Diag.parcelableHolderReturn], []⟩
  else if m.oneway && m.type.GetName != "void" then
    ⟨false, r.2 ++ [Diag.onewayNonVoid m.name], []⟩
  else
    let ra := argumentsLoop env m m.arguments []
    if ra.ok = false then ⟨false, r.2 ++ ra.errors, ra.advisories⟩
    else
      match methodNames.lookup m.name with
      | some prevLoc =>
        ⟨false, r.2 ++ ra.errors ++
          [Diag.redefineMethod m.name, Diag.previouslyDefinedHere prevLoc],
         ra.advisories⟩
      | none =>
        if reservedMethodSignatures.contains m.Signature then
          ⟨false, r.2 ++ ra.errors ++ [Diag.reservedMethod m.Signature],
           ra.advisories⟩
        else ⟨true, r.2 ++ ra.errors, ra.advisories⟩

/-- The method loop of AidlInterface::CheckValid, threading the map from
method name to its first definition site. -/
def methodsLoop (env : Env) :
    List AidlMethod → List (String × AidlLocation) → CheckOutcome
  | [], _ => ⟨true, [], []⟩
  | m :: rest, methodNames =>
    let r := methodCheck env methodNames m
    if r.ok = false then r
    else
      let r2 := methodsLoop env rest ((m.name, m.location) :: methodNames)
      ⟨r2.ok, r.errors ++ r2.errors, r.advisories ++ r2.advisories⟩

/-- AidlInterface::CheckValid (lines 1443-1557): the defined-type pass
returns false early, then the method loop returns false early, then the
constants are checked with the accumulate-and-continue pattern and a
name not starting with I raises an advisory. -/
def AidlInterface.CheckValid (env : Env) (i : AidlInterface) : CheckOutcome :=
  let r0 := AidlDefinedType.CheckValid env interfaceSupported i.annotations
    i.name i.fields i.constants
  if r0.1 = false then ⟨false, r0.2, []⟩
  else
    let rm := methodsLoop env i.methods []
    if rm.ok = false then ⟨false, r0.2 ++ rm.errors, rm.advisories⟩
    else
      let rc := constantsLoop env i.constants [] true
      let adv := if i.name.startsWith "I" then []
        else [Advisory.interfaceNameShouldStartWithI i.location]
      ⟨rc.1, r0.2 ++ rm.errors ++ rc.2, rm.advisories ++ adv⟩

/-- One defined type of a document, dispatching over the concrete
declaration kinds. -/
inductive AidlDefinedTypeNode where
  | parcelableNode (p : AidlParcelable)
  | structuredNode (s : AidlStructuredParcelable)
  | unionNode (u : AidlUnionDecl)
  | enumNode (e : AidlEnumDeclaration)
  | interfaceNode (i : AidlInterface)
deriving Repr

/-- Virtual dispatch of CheckValid over the declaration kinds. -/
def AidlDefinedTypeNode.CheckValid (env : Env) :
    AidlDefinedTypeNode → CheckOutcome
  | .parcelableNode p => let r := p.CheckValid env; ⟨r.1, r.2, []⟩
  | .structuredNode s => let r := s.CheckValid env; ⟨r.1, r.2, []⟩
  | .unionNode u => let r := u.CheckValid env; ⟨r.1, r.2, []⟩
  | .enumNode e => e.CheckValid env
  | .interfaceNode i => i.CheckValid env

/-- A document: the defined types of one compilation unit (the import
list, used only by ResolveName, is not needed by these claims). -/
structure AidlDocument where
  definedTypes : List AidlDefinedTypeNode
deriving Repr

/-- The loop of AidlDocument::CheckValid (lines 1570-1577): the first
defined type that fails validation returns false immediately. -/
def documentTypesLoop (env : Env) : List AidlDefinedTypeNode → CheckOutcome
  | [] => ⟨true, [], []⟩
  | t :: rest =>
    let r := t.CheckValid env
    if r.ok = false then ⟨false, r.errors, r.advisories⟩
    else
      let r2 := documentTypesLoop env rest
      ⟨r2.ok, r.errors ++ r2.errors, r.advisories ++ r2.advisories⟩

/-- AidlDocument::CheckValid (aidl_language.cpp lines 1570-1577). -/
def AidlDocument.CheckValid (env : Env) (d : AidlDocument) : CheckOutcome :=
  documentTypesLoop env d.definedTypes

/-- AidlAnnotation::AnnotationParams (lines 261-287): best-effort
rendering of the syntactically valid parameters; unsupported or invalid
parameters are skipped (their diagnostics go to the sink and are not
modelled on this rendering-only path). -/
def AidlAnnot.AnnotationParams (env : Env) (a : AidlAnnot) :
    List (String × String) :=
  a.parameters.filterMap (fun p =>
    match a.schema.supportedParameters.lookup p.1 with
    | none => none
    | some pt =>
      if env.cvCheckValid p.2 = false then none
      else some (p.1, env.cvValueString p.2 (staticSpec pt)))

/-- AidlAnnotation::ToString (lines 289-299). -/
def AidlAnnot.ToString (env : Env) (a : AidlAnnot) : String :=
  if a.parameters.isEmpty then "@" ++ a.schema.name
  else
    "@" ++ a.schema.name ++ "(" ++
      String.intercalate ", "
        ((a.AnnotationParams env).map (fun p => p.1 ++ "=" ++ p.2)) ++ ")"

/-- Insertion step of the sort used by AidlAnnotatable::ToString. -/
def insertSorted (s : String) : List String → List String
  | [] => [s]
  | x :: xs => if s < x then s :: x :: xs else x :: insertSorted s xs

/-- The std::sort of AidlAnnotatable::ToString, as insertion sort. -/
def sortStrings : List String → List String
  | [] => []
  | x :: xs => insertSorted x (sortStrings xs)

/-- AidlAnnotatable::ToString (lines 416-423): the attached annotations
rendered, sorted, and joined with spaces. -/
def AidlAnnotatable.ToString (env : Env) (annots : List AidlAnnot) : String :=
  String.intercalate " " (sortStrings (annots.map (AidlAnnot.ToString env)))

/-- AidlTypeSpecifier::ToString (lines 467-474). -/
def AidlTypeSpecifier.ToString (env : Env) (t : AidlTypeSpecifier) : String :=
  let ret := t.Signature
  let annotStr := AidlAnnotatable.ToString env t.annotations
  if annotStr == "" then ret else annotStr ++ " " ++ ret

/-- AidlVariableDeclaration::ToString (lines 684-690). -/
def AidlVariableDeclaration.ToString (env : Env)
    (v : AidlVariableDeclaration) : String :=
  let ret := v.type.ToString env ++ " " ++ v.name
  if v.defaultValue.isSome && v.defaultUserSpecified then
    ret ++ " = " ++ v.ValueString env
  else ret

/-- AidlArgument::ToString (lines 734-740): the direction specifier and a
space are prepended only when the direction was written by the user. -/
def AidlArgument.ToString (env : Env) (a : AidlArgument) : String :=
  if a.directionSpecified then
    a.GetDirectionSpecifier ++ " " ++ a.var.ToString env
  else a.var.ToString env

/-- Decimal digit accumulator for the literal parser of the evaluation
model. -/
def parseNatDigits : List Char → Nat → Option Nat
  | [], acc => some acc
  | c :: cs, acc =>
    if c.isDigit then parseNatDigits cs (acc * 10 + (c.toNat - 48))
    else none

/-- Parse a non-empty decimal literal, with an optional leading minus. -/
def parseIntString (s : String) : Option Int :=
  match s.data with
  | [] => none
  | '-' :: cs =>
    match cs with
    | [] => none
    | _ => (parseNatDigits cs 0).map (fun n => -(n : Int))
  | cs => (parseNatDigits cs 0).map (fun n => (n : Int))

/-- Modelled from the spec: integer evaluation of the back-filled value
expressions by the external constant-value engine, restricted to the
node kinds enum autofill produces (integral literals, references to
earlier enumerators, and the + operator).  The context maps enumerator
names to their already-evaluated values. -/
def evalConstInt (ctx : List (String × Int)) : AidlConstVal → Option Int
  | .integral _ s => parseIntString s
  | .ref _ n _ => ctx.lookup n
  | .binary _ lhs op rhs =>
    if op == "+" then
      match evalConstInt ctx lhs, evalConstInt ctx rhs with
      | some a, some b => some (a + b)
      | _, _ => none
    else none
  | _ => none

/-- Evaluate the enumerators of an enum in declaration order, each value
seeing the values of the enumerators before it. -/
def enumValuesFrom (ctx : List (String × Int)) :
    List AidlEnumerator → List (Option Int)
  | [] => []
  | e :: rest =>
    let v := e.value.bind (evalConstInt ctx)
    v :: enumValuesFrom
      (match v with
       | some i => (e.name, i) :: ctx
       | none => ctx) rest

/-- The evaluated values of the enumerators of an enum declaration. -/
def enumValues (e : AidlEnumDeclaration) : List (Option Int) :=
  enumValuesFrom [] e.enumerators

/-- A concrete instantiation of the external collaborators, used by the
closed witness and counterexample theorems: a small type-name table with
one enum, one interface and one parcelable, the standard primitive and
builtin name sets, and a constant-value engine that renders integral
literals by their text. -/
def testEnv : Env where
  ResolveTypename := fun n =>
    if n == "byte" || n == "int" || n == "long" then some (n, none) else none
  TryGetDefinedType := fun n =>
    if n == "MyEnum" then some .enumKind
    else if n == "IFace" then some .interfaceKind
    else if n == "Pearl" then some (.parcelableKind none)
    else none
  IsPrimitiveTypename := fun n =>
    ["void", "boolean", "byte", "char", "int", "long", "float",
     "double"].contains n
  IsBuiltinTypename := fun n =>
    ["void", "boolean", "byte", "char", "int", "long", "float", "double",
     "String", "List", "Map", "IBinder", "FileDescriptor", "CharSequence",
     "ParcelFileDescriptor", "ParcelableHolder"].contains n
  CanBeJavaOnlyImmutable := fun _ => true
  CanBeFixedSize := fun _ => true
  CanBeOutParameter := fun _ => (false, "primitive")
  cvCheckValid := fun _ => true
  cvValueString := fun v _ =>
    match v with
    | .integral _ s => s
    | _ => "v"
  cvStringValue := fun v =>
    match v with
    | .integral _ s => s
    | _ => ""
  cvDefault := fun _ => none

/-- An unresolved non-generic specifier with no annotations, as the
parser produces for a plain dotted name. -/
def simpleSpec (n : String) : AidlTypeSpecifier :=
  .mk locHere n false none "" [] "" none

/-- C10: an AidlArgument constructed without an explicit direction has
the in direction, reports the direction as unspecified, renders an empty
direction specifier, and its ToString is exactly the rendering of the
underlying variable declaration, with no direction part. -/
theorem argument_without_direction_behaves_as_in (env : Env)
    (loc : AidlLocation) (type : AidlTypeSpecifier) (name : String) :
    (AidlArgument.mkNoDirection env loc type name).GetDirection =
        AidlDirection.inDir ∧
    (AidlArgument.mkNoDirection env loc type name).DirectionWasSpecified =
        false ∧
    (AidlArgument.mkNoDirection env loc type name).GetDirectionSpecifier = "" ∧
    (AidlArgument.mkNoDirection env loc type name).ToString env =
      (AidlArgument.mkNoDirection env loc type name).var.ToString env := by
  refine ⟨rfl, rfl, rfl, ?_⟩
  simp [AidlArgument.ToString, AidlArgument.mkNoDirection]

/-- C8: Resolve can be called at most once.  An already-resolved
specifier hits the fatal assertion (the none result); under the
precondition that the specifier is unresolved the fatal branch is
unreachable; and after a successful resolution a second call is fatal,
whenever the type-name table hands out non-empty canonical names. -/
theorem resolve_at_most_once (env : Env) (t : AidlTypeSpecifier) :
    (t.IsResolved = true → t.Resolve env = none) ∧
    (t.IsResolved = false → (t.Resolve env).isSome = true) ∧
    (∀ t', t.Resolve env = some (true, t') →
      (∀ n c d, env.ResolveTypename n = some (c, d) → c ≠ "") →
      t'.Resolve env = none) := by
  refine ⟨?_, ?_, ?_⟩
  · intro h
    simp [AidlTypeSpecifier.Resolve, h]
  · intro h
    simp only [AidlTypeSpecifier.Resolve, h, Bool.false_eq_true, if_false]
    cases henv : env.ResolveTypename t.unresolvedName with
    | none => simp
    | some p => cases p with | _ c d => simp
  · intro t' hres henv
    by_cases h : t.IsResolved = true
    · simp [AidlTypeSpecifier.Resolve, h] at hres
    · rw [Bool.not_eq_true] at h
      simp only [AidlTypeSpecifier.Resolve, h, Bool.false_eq_true, if_false] at hres
      cases henv2 : env.ResolveTypename t.unresolvedName with
      | none =>
        rw [henv2] at hres
        simp at hres
      | some p =>
        cases p with
        | _ c d =>
          rw [henv2] at hres
          simp only [Option.some.injEq, Prod.mk.injEq, true_and] at hres
          have hc : c ≠ "" := henv t.unresolvedName c d henv2
          subst hres
          simp [AidlTypeSpecifier.Resolve, AidlTypeSpecifier.IsResolved,
            AidlTypeSpecifier.fullyQualifiedName, hc]

/-- Witness environment for the resolution claim: every lookup succeeds
with the non-empty canonical name used by the byte builtin. -/
def resolveWitnessEnv : Env :=
  { testEnv with ResolveTypename := fun _ => some ("byte", none) }

/-- Witness for resolve_at_most_once: a fresh unresolved byte specifier
resolves once, and the resolved result is fatal to resolve again. -/
theorem resolve_at_most_once_witness :
    (((simpleSpec "byte").Resolve resolveWitnessEnv).isSome = true) ∧
    ((AidlTypeSpecifier.mk locHere "byte" false none "" [] "byte"
        none).Resolve resolveWitnessEnv = none) := by
  constructor
  · exact (resolve_at_most_once resolveWitnessEnv (simpleSpec "byte")).2.1 rfl
  · exact (resolve_at_most_once resolveWitnessEnv (simpleSpec "byte")).2.2
      (.mk locHere "byte" false none "" [] "byte" none) rfl
      (by intro n c d h; simp only [resolveWitnessEnv] at h;
          simp only [Option.some.injEq, Prod.mk.injEq] at h;
          rw [← h.1]; decide)

/-- An enumerator whose value the user wrote is stored unchanged by the
back-fill loop. -/
theorem fillEnumerators_keep (es : List AidlEnumerator) :
    ∀ (prev : Option AidlEnumerator) (i : Nat) (e : AidlEnumerator)
      (v : AidlConstVal), es[i]? = some e → e.value = some v →
      (fillEnumerators prev es)[i]? = some e := by
  induction es with
  | nil => intro prev i e v h _; simp at h
  | cons e0 rest ih =>
    intro prev i e v h hv
    cases i with
    | zero =>
      simp only [List.getElem?_cons_zero, Option.some.injEq] at h
      subst h
      simp [fillEnumerators, hv]
    | succ n =>
      simp only [List.getElem?_cons_succ] at h
      cases hval : e0.value with
      | some v0 =>
        simp only [fillEnumerators, hval, List.getElem?_cons_succ]
        exact ih _ n e v h hv
      | none =>
        cases prev with
        | none =>
          simp only [fillEnumerators, hval, List.getElem?_cons_succ]
          exact ih _ n e v h hv
        | some p =>
          simp only [fillEnumerators, hval, List.getElem?_cons_succ]
          exact ih _ n e v h hv

/-- A first enumerator without a value is back-filled with the literal
0 at its own location. -/
theorem fillEnumerators_first (es : List AidlEnumerator) (e : AidlEnumerator)
    (h : es[0]? = some e) (hv : e.value = none) :
    (fillEnumerators none es)[0]? =
      some { e with value := some (.integral e.location "0") } := by
  cases es with
  | nil => simp at h
  | cons e0 rest =>
    simp only [List.getElem?_cons_zero, Option.some.injEq] at h
    subst h
    simp [fillEnumerators, hv]

/-- A later enumerator without a value is back-filled with the symbolic
expression previous-name + 1, the reference naming the enumerator
immediately before it. -/
theorem fillEnumerators_succ (es : List AidlEnumerator) :
    ∀ (prev : Option AidlEnumerator) (i : Nat) (p e : AidlEnumerator),
      es[i]? = some p → es[i + 1]? = some e → e.value = none →
      (fillEnumerators prev es)[i + 1]? =
        some { e with value := some (.binary e.location
          (.ref e.location p.name "") "+" (.integral e.location "1")) } := by
  induction es with
  | nil => intro prev i p e h _ _; simp at h
  | cons e0 rest ih =>
    intro prev i p e hp he hv
    cases i with
    | zero =>
      simp only [List.getElem?_cons_zero, Option.some.injEq] at hp
      subst hp
      simp only [List.getElem?_cons_succ] at he
      cases rest with
      | nil => simp at he
      | cons e1 r2 =>
        simp only [List.getElem?_cons_zero, Option.some.injEq] at he
        subst he
        cases hval : e0.value with
        | some v0 =>
          simp only [fillEnumerators, hval, List.getElem?_cons_succ]
          simp [fillEnumerators, hv]
        | none =>
          cases prev with
          | none =>
            simp only [fillEnumerators, hval, List.getElem?_cons_succ]
            simp [fillEnumerators, hv]
          | some q =>
            simp only [fillEnumerators, hval, List.getElem?_cons_succ]
            simp [fillEnumerators, hv]
    | succ n =>
      simp only [List.getElem?_cons_succ] at hp he
      cases hval : e0.value with
      | some v0 =>
        simp only [fillEnumerators, hval, List.getElem?_cons_succ]
        exact ih _ n p e hp he hv
      | none =>
        cases prev with
        | none =>
          simp only [fillEnumerators, hval, List.getElem?_cons_succ]
          exact ih _ n p e hp he hv
        | some q =>
          simp only [fillEnumerators, hval, List.getElem?_cons_succ]
          exact ih _ n p e hp he hv

/-- Enumerators A, B, C with no explicit values. -/
def abcEnumerators : List AidlEnumerator :=
  [⟨locHere, "A", none, "", false⟩, ⟨locHere, "B", none, "", false⟩,
   ⟨locHere, "C", none, "", false⟩]

/-- Enumerators A = 5, B, C. -/
def fiveEnumerators : List AidlEnumerator :=
  [⟨locHere, "A", some (.integral locHere "5"), "", true⟩,
   ⟨locHere, "B", none, "", false⟩, ⟨locHere, "C", none, "", false⟩]

/-- C6: the AidlEnumDeclaration constructor back-fills missing
enumerator values: a user-written value is kept, a first enumerator
without a value gets the literal 0, every later valueless enumerator
gets the symbolic expression previous-enumerator + 1, and the values of
A, B, C evaluate to 0, 1, 2 while those of A = 5, B, C evaluate to
5, 6, 7. -/
theorem enum_constructor_backfill :
    (∀ (l : AidlLocation) (n pk cm : String) (an : List AidlAnnot)
        (es : List AidlEnumerator) (i : Nat) (e : AidlEnumerator)
        (v : AidlConstVal), es[i]? = some e → e.value = some v →
        (mkAidlEnumDeclaration l n es pk cm an).enumerators[i]? = some e)
    ∧ (∀ (l : AidlLocation) (n pk cm : String) (an : List AidlAnnot)
        (es : List AidlEnumerator) (e : AidlEnumerator),
        es[0]? = some e → e.value = none →
        (mkAidlEnumDeclaration l n es pk cm an).enumerators[0]? =
          some { e with value := some (.integral e.location "0") })
    ∧ (∀ (l : AidlLocation) (n pk cm : String) (an : List AidlAnnot)
        (es : List AidlEnumerator) (i : Nat) (p e : AidlEnumerator),
        es[i]? = some p → es[i + 1]? = some e → e.value = none →
        (mkAidlEnumDeclaration l n es pk cm an).enumerators[i + 1]? =
          some { e with value := some (.binary e.location
            (.ref e.location p.name "") "+" (.integral e.location "1")) })
    ∧ enumValues (mkAidlEnumDeclaration locHere "ABC" abcEnumerators "" "" []) =
        [some 0, some 1, some 2]
    ∧ enumValues
        (mkAidlEnumDeclaration locHere "AFiveBC" fiveEnumerators "" "" []) =
        [some 5, some 6, some 7] := by
  refine ⟨?_, ?_, ?_, by rfl, by rfl⟩
  · intro l n pk cm an es i e v h hv
    exact fillEnumerators_keep es none i e v h hv
  · intro l n pk cm an es e h hv
    exact fillEnumerators_first es e h hv
  · intro l n pk cm an es i p e hp he hv
    exact fillEnumerators_succ es none i p e hp he hv

/-- Witness for enum_constructor_backfill: in the A, B, C enum the
second enumerator is back-filled with A + 1. -/
theorem enum_constructor_backfill_witness :
    (mkAidlEnumDeclaration locHere "ABC" abcEnumerators "" "" []).enumerators[1]? =
      some ⟨locHere, "B", some (.binary locHere (.ref locHere "A" "") "+"
        (.integral locHere "1")), "", false⟩ :=
  enum_constructor_backfill.2.2.1 locHere "ABC" "" "" [] abcEnumerators 0
    ⟨locHere, "A", none, "", false⟩ ⟨locHere, "B", none, "", false⟩ rfl rfl rfl

/-- A union with no fields, which fails validation with the no-fields
error. -/
def c3Union1 : AidlUnionDecl := ⟨locHere, "U1", "", "", none, [], [], []⟩

/-- A second field-less union, to sit after the first failing type. -/
def c3Union2 : AidlUnionDecl := ⟨locHere, "U2", "", "", none, [], [], []⟩

/-- C3 counterexample: in a document holding two invalid types, only the
diagnostics of the first appear in the CheckValid output, although the
second type fails its own validation too, so the first failing type does
stop validation of the remaining types. -/
theorem document_does_not_validate_all_types :
    AidlDocument.CheckValid testEnv ⟨[.unionNode c3Union1, .unionNode c3Union2]⟩ =
      ⟨false, [Diag.unionNoFields "U1"], []⟩
    ∧ (AidlDefinedTypeNode.unionNode c3Union2).CheckValid testEnv =
      ⟨false, [Diag.unionNoFields "U2"], []⟩ := ⟨rfl, rfl⟩

/-- C3 (amended): AidlDocument::CheckValid returns false iff some
contained defined type fails validation, but it stops at the first
failing type: the diagnostics are those of the passing prefix and of the
first failing type only, and the remaining types are not validated. -/
theorem document_CheckValid_stops_at_first_failure :
    (∀ (env : Env) (ts : List AidlDefinedTypeNode),
      (AidlDocument.CheckValid env ⟨ts⟩).ok =
        ts.all (fun t => (t.CheckValid env).ok))
    ∧ (∀ (env : Env) (pre : List AidlDefinedTypeNode)
        (t : AidlDefinedTypeNode) (post : List AidlDefinedTypeNode),
        (∀ u, u ∈ pre → (u.CheckValid env).ok = true) →
        (t.CheckValid env).ok = false →
        AidlDocument.CheckValid env ⟨pre ++ t :: post⟩ =
          ⟨false,
            (pre.map (fun u => (u.CheckValid env).errors)).flatten ++
              (t.CheckValid env).errors,
            (pre.map (fun u => (u.CheckValid env).advisories)).flatten ++
              (t.CheckValid env).advisories⟩) := by
  constructor
  · intro env ts
    show (documentTypesLoop env ts).ok = _
    induction ts with
    | nil => rfl
    | cons t rest ih =>
      simp only [documentTypesLoop, List.all_cons]
      cases h : (t.CheckValid env).ok with
      | false => simp [h]
      | true => simp [h, ih]
  · intro env pre t post hpre ht
    show documentTypesLoop env (pre ++ t :: post) = _
    induction pre with
    | nil =>
      simp only [List.nil_append, documentTypesLoop, ht, List.map_nil,
        List.flatten_nil, List.nil_append]
      simp [ht]
    | cons u rest ih =>
      have hu : (u.CheckValid env).ok = true := hpre u (List.mem_cons_self u rest)
      have ih2 := ih (fun v hv => hpre v (List.mem_cons_of_mem u hv))
      simp [documentTypesLoop, hu, ih2, List.append_assoc]

/-- A union whose first field default is missing: the single field of
this helper never matters, only its failing validation result. -/
def c3wBadUnion : AidlUnionDecl := ⟨locHere, "W1", "", "", none, [], [], []⟩

/-- A passing unstructured parcelable for the witness document. -/
def c3wParcelable : AidlParcelable :=
  ⟨locHere, "P", "", "", "hdr", none, [], [], []⟩

/-- Witness for document_CheckValid_stops_at_first_failure: with a
passing parcelable before a failing union, the document fails with
exactly the diagnostics of the prefix and the failing union. -/
theorem document_CheckValid_stops_at_first_failure_witness :
    AidlDocument.CheckValid testEnv
      ⟨[.parcelableNode c3wParcelable, .unionNode c3wBadUnion,
        .unionNode c3Union1]⟩ =
      ⟨false, [Diag.unionNoFields "W1"], []⟩ :=
  document_CheckValid_stops_at_first_failure.2 testEnv
    [.parcelableNode c3wParcelable] (.unionNode c3wBadUnion) [.unionNode c3Union1]
    (fun u hu => by
      rcases List.mem_singleton.mp hu with h
      rw [h]
      rfl)
    rfl

/-- The nullable schema of the registry, for parameter-less annotation
instances. -/
def nullableSchema : AidlSchema := ⟨.nullable, "nullable", [], false, []⟩

/-- Helper for the paramsCheck loop: a violating parameter anywhere in
the list forces the loop to report some violation. -/
theorem paramsCheck_isSome_of_violation (env : Env) (a : AidlAnnot) :
    ∀ (l : List (String × AidlConstVal)) (p : String × AidlConstVal),
      p ∈ l → (a.paramViolation env p).isSome = true →
      (a.paramsCheck env l).isSome = true := by
  intro l
  induction l with
  | nil => intro p h _; simp at h
  | cons q rest ih =>
    intro p h hv
    simp only [AidlAnnot.paramsCheck]
    cases hq : a.paramViolation env q with
    | some d => simp
    | none =>
      simp only []
      rcases List.mem_cons.mp h with h1 | h2
      · subst h1; rw [hq] at hv; simp at hv
      · exact ih p h2 hv

/-- Helper: with no violating parameter the loop reports none. -/
theorem paramsCheck_none_of_no_violation (env : Env) (a : AidlAnnot) :
    ∀ (l : List (String × AidlConstVal)),
      (∀ p, p ∈ l → a.paramViolation env p = none) →
      a.paramsCheck env l = none := by
  intro l
  induction l with
  | nil => intro _; rfl
  | cons q rest ih =>
    intro h
    simp only [AidlAnnot.paramsCheck, h q (List.mem_cons_self q rest)]
    exact ih (fun p hp => h p (List.mem_cons_of_mem q hp))

/-- C2 (amended): AidlAnnotation::CheckValid short-circuits on the
supplied parameters: any violating parameter makes the call return false
with exactly one diagnostic (the first violation found), skipping the
remaining parameters and the required-parameter pass; only when every
supplied parameter passes are the required parameters checked, with one
diagnostic per missing name and success iff none is missing. -/
theorem annotation_CheckValid_short_circuits (env : Env) (a : AidlAnnot) :
    ((∃ p, p ∈ a.parameters ∧ (a.paramViolation env p).isSome = true) →
      (a.CheckValid env).1 = false ∧ (a.CheckValid env).2.length = 1)
    ∧ ((∀ p, p ∈ a.parameters → a.paramViolation env p = none) →
      (a.CheckValid env).2.length = a.missingRequired.length ∧
      ((a.CheckValid env).1 = true ↔ a.missingRequired = [])) := by
  constructor
  · rintro ⟨p, hp, hv⟩
    have h := paramsCheck_isSome_of_violation env a a.parameters p hp hv
    rcases Option.isSome_iff_exists.mp h with ⟨d, hd⟩
    simp [AidlAnnot.CheckValid, hd]
  · intro h
    have h2 := paramsCheck_none_of_no_violation env a a.parameters h
    simp [AidlAnnot.CheckValid, h2, List.isEmpty_iff]

/-- An annotation instance carrying two parameters that are both
unsupported by its schema. -/
def c2BadAnnot : AidlAnnot :=
  ⟨locHere, nullableSchema,
   [("a", .integral locHere "1"), ("b", .integral locHere "1")]⟩

/-- C2 counterexample: both supplied parameters of c2BadAnnot violate
the schema, yet a single CheckValid call emits exactly one diagnostic,
for the first parameter only, so the call does not surface every
per-parameter problem. -/
theorem annotation_CheckValid_not_exhaustive :
    (c2BadAnnot.paramViolation testEnv ("a", .integral locHere "1")).isSome = true
    ∧ (c2BadAnnot.paramViolation testEnv ("b", .integral locHere "1")).isSome = true
    ∧ AidlAnnot.CheckValid testEnv c2BadAnnot =
        (false, [Diag.unsupportedParameter "a" "nullable"]) := ⟨rfl, rfl, rfl⟩

/-- An annotation with one unsupported parameter, for the witness. -/
def c2WitnessAnnot : AidlAnnot :=
  ⟨locHere, nullableSchema, [("x", .other 0)]⟩

/-- Witness for annotation_CheckValid_short_circuits at a concrete
annotation with a violating parameter. -/
theorem annotation_CheckValid_short_circuits_witness :
    (AidlAnnot.CheckValid testEnv c2WitnessAnnot).1 = false ∧
    (AidlAnnot.CheckValid testEnv c2WitnessAnnot).2.length = 1 :=
  (annotation_CheckValid_short_circuits testEnv c2WitnessAnnot).1
    ⟨("x", .other 0), by decide, by decide⟩

/-- C9: AidlEnumDeclaration::Autofill returns false exactly when a
Backing annotation is present and fails its own CheckValid; when the
constructed backing type specifier fails to resolve against the
type-name table, Autofill emits the invalid-backing-type diagnostic but
still returns true, both with an explicit Backing type and with the
byte default. -/
theorem enum_Autofill_failure_condition (env : Env) (e : AidlEnumDeclaration) :
    ((e.Autofill env).1 = false ↔
      ∃ a, getAnnot e.annotations .backing = some a ∧
        (a.CheckValid env).1 = false)
    ∧ (∀ a, getAnnot e.annotations .backing = some a →
        (a.CheckValid env).1 = true →
        env.ResolveTypename (annotParamString env a "type") = none →
        (e.Autofill env).1 = true ∧
          Diag.invalidBackingType (annotParamString env a "type") ∈
            (e.Autofill env).2.1)
    ∧ (getAnnot e.annotations .backing = none →
        env.ResolveTypename "byte" = none →
        (e.Autofill env).1 = true ∧
          Diag.invalidBackingType "byte" ∈ (e.Autofill env).2.1) := by
  refine ⟨?_, ?_, ?_⟩
  · constructor
    · intro h
      cases hA : getAnnot e.annotations .backing with
      | none =>
        exfalso
        simp only [AidlEnumDeclaration.Autofill, hA] at h
        cases hR : (AidlTypeSpecifier.mk locHere "byte" false none "" [] ""
            none).Resolve env with
        | none => simp [hR] at h
        | some p =>
          rcases p with ⟨b, bt'⟩
          cases b with
          | false => simp [hR] at h
          | true => simp [hR] at h
      | some a =>
        refine ⟨a, rfl, ?_⟩
        simp only [AidlEnumDeclaration.Autofill, hA] at h
        cases hC : (a.CheckValid env).1 with
        | false => rfl
        | true =>
          exfalso
          simp only [hC, Bool.true_eq_false, if_false] at h
          cases hR : (AidlTypeSpecifier.mk a.location
              (annotParamString env a "type") false none "" [] ""
              none).Resolve env with
          | none => simp [hR] at h
          | some p =>
            rcases p with ⟨b, bt'⟩
            cases b with
            | false => simp [hR] at h
            | true => simp [hR] at h
    · rintro ⟨a, hA, hC⟩
      simp [AidlEnumDeclaration.Autofill, hA, hC]
  · intro a hA hC hRT
    have hR : (AidlTypeSpecifier.mk a.location
        (annotParamString env a "type") false none "" [] "" none).Resolve env =
        some (false, .mk a.location (annotParamString env a "type") false none
          "" [] "" none) := by
      simp [AidlTypeSpecifier.Resolve, AidlTypeSpecifier.IsResolved,
        AidlTypeSpecifier.fullyQualifiedName, AidlTypeSpecifier.unresolvedName,
        hRT]
    simp only [AidlEnumDeclaration.Autofill, hA, hC, Bool.true_eq_false,
      if_false, hR]
    simp [AidlTypeSpecifier.GetName, AidlTypeSpecifier.IsResolved,
      AidlTypeSpecifier.fullyQualifiedName, AidlTypeSpecifier.unresolvedName]
  · intro hA hRT
    have hR : (AidlTypeSpecifier.mk locHere "byte" false none "" [] ""
        none).Resolve env = some (false, .mk locHere "byte" false none "" [] ""
          none) := by
      simp [AidlTypeSpecifier.Resolve, AidlTypeSpecifier.IsResolved,
        AidlTypeSpecifier.fullyQualifiedName, AidlTypeSpecifier.unresolvedName,
        hRT]
    simp only [AidlEnumDeclaration.Autofill, hA, hR]
    simp [AidlTypeSpecifier.GetName, AidlTypeSpecifier.IsResolved,
      AidlTypeSpecifier.fullyQualifiedName, AidlTypeSpecifier.unresolvedName]

/-- The Backing schema entry, as in the registry. -/
def backingSchema : AidlSchema :=
  ⟨.backing, "Backing", [("type", .stringType)], false, ["type"]⟩

/-- A Backing annotation naming a type unknown to the test table. -/
def c9BackingAnnot : AidlAnnot :=
  ⟨locHere, backingSchema, [("type", .integral locHere "NoSuchType")]⟩

/-- An enum carrying the unresolvable Backing annotation. -/
def c9Enum : AidlEnumDeclaration :=
  ⟨locHere, "E9", [⟨locHere, "A", none, "", false⟩], "", "",
   [c9BackingAnnot], none⟩

/-- Witness for enum_Autofill_failure_condition: an enum with a valid
Backing annotation naming an unknown type gets the diagnostic while
Autofill still succeeds. -/
theorem enum_Autofill_failure_condition_witness :
    (c9Enum.Autofill testEnv).1 = true ∧
      Diag.invalidBackingType "NoSuchType" ∈ (c9Enum.Autofill testEnv).2.1 :=
  (enum_Autofill_failure_condition testEnv c9Enum).2.1 c9BackingAnnot rfl rfl rfl

/-- In a oneway method, the argument loop fails as soon as it meets an
out or inout argument, whatever happens on the arguments before it. -/
theorem argumentsLoop_false_of_oneway_out (env : Env) (m : AidlMethod)
    (hone : m.oneway = true) :
    ∀ (args : List AidlArgument) (arg : AidlArgument), arg ∈ args →
      arg.IsOut = true → ∀ seen, (argumentsLoop env m args seen).ok = false := by
  intro args
  induction args with
  | nil => intro arg h _ _; simp at h
  | cons a rest ih =>
    intro arg h hout seen
    rcases List.mem_cons.mp h with rfl | hrest
    · simp only [argumentsLoop]
      split
      · rfl
      · split
        · rfl
        · split
          · rfl
          · simp [hone, hout]
    · simp only [argumentsLoop]
      split
      · rfl
      · split
        · rfl
        · split
          · rfl
          · split
            · rfl
            · split
              · rfl
              · split
                · rfl
                · split
                  · rfl
                  · split
                    · rfl
                    · simp only []
                      exact ih arg hrest hout _

/-- A oneway method with a non-void return type fails its per-method
check on every path. -/
theorem methodCheck_false_of_oneway_nonvoid (env : Env)
    (names : List (String × AidlLocation)) (m : AidlMethod)
    (hone : m.oneway = true) (hvoid : m.type.GetName ≠ "void") :
    (methodCheck env names m).ok = false := by
  have hv : (m.type.GetName == "void") = false := beq_eq_false_iff_ne.mpr hvoid
  simp only [methodCheck]
  split
  · rfl
  · split
    · rfl
    · split
      · rfl
      · rename_i hcond
        exfalso
        apply hcond
        simp [hone, bne, hv]

/-- A oneway method with an out or inout argument fails its per-method
check on every path. -/
theorem methodCheck_false_of_oneway_outarg (env : Env)
    (names : List (String × AidlLocation)) (m : AidlMethod)
    (hone : m.oneway = true) (arg : AidlArgument) (ha : arg ∈ m.arguments)
    (hout : arg.IsOut = true) : (methodCheck env names m).ok = false := by
  have hra := argumentsLoop_false_of_oneway_out env m hone m.arguments arg
    ha hout []
  simp only [methodCheck]
  split
  · rfl
  · split
    · rfl
    · split
      · rfl
      · simp [hra]

/-- The method loop fails whenever it contains a method whose per-method
check fails on every name map. -/
theorem methodsLoop_false_of_bad_method (env : Env) :
    ∀ (ms : List AidlMethod) (m : AidlMethod), m ∈ ms →
      (∀ names, (methodCheck env names m).ok = false) →
      ∀ names, (methodsLoop env ms names).ok = false := by
  intro ms
  induction ms with
  | nil => intro m h _ _; simp at h
  | cons m0 rest ih =>
    intro m h hf names
    rcases List.mem_cons.mp h with rfl | hrest
    · simp [methodsLoop, hf names]
    · simp only [methodsLoop]
      cases hr : (methodCheck env names m0).ok with
      | false => simp [hr]
      | true => simp [hr]; exact ih m hrest hf _

/-- AidlInterface::CheckValid fails whenever its method loop fails. -/
theorem interface_CheckValid_false_of_methodsLoop (env : Env)
    (i : AidlInterface) (h : (methodsLoop env i.methods []).ok = false) :
    (i.CheckValid env).ok = false := by
  simp only [AidlInterface.CheckValid]
  cases hr0 : (AidlDefinedType.CheckValid env interfaceSupported i.annotations
      i.name i.fields i.constants).1 with
  | false => simp [hr0]
  | true => simp [hr0, h]

/-- C7: within an interface, a oneway method whose return type is not
void makes CheckValid fail, and so does a oneway method with an out or
inout argument; when the offending method leads the method list and its
earlier checks pass, the failure carries the diagnostic naming the
method. -/
theorem interface_oneway_restrictions (env : Env) (i : AidlInterface)
    (m : AidlMethod) (hm : m ∈ i.methods) (hone : m.oneway = true) :
    (m.type.GetName ≠ "void" → (i.CheckValid env).ok = false)
    ∧ (∀ arg, arg ∈ m.arguments → arg.IsOut = true →
        (i.CheckValid env).ok = false)
    ∧ (∀ rest, i.methods = m :: rest →
        (AidlDefinedType.CheckValid env interfaceSupported i.annotations
          i.name i.fields i.constants).1 = true →
        (m.type.CheckValid env).1 = true →
        m.type.GetName ≠ "ParcelableHolder" → m.type.GetName ≠ "void" →
        Diag.onewayNonVoid m.name ∈ (i.CheckValid env).errors) := by
  refine ⟨?_, ?_, ?_⟩
  · intro hvoid
    exact interface_CheckValid_false_of_methodsLoop env i
      (methodsLoop_false_of_bad_method env i.methods m hm
        (fun names => methodCheck_false_of_oneway_nonvoid env names m hone
          hvoid) [])
  · intro arg ha hout
    exact interface_CheckValid_false_of_methodsLoop env i
      (methodsLoop_false_of_bad_method env i.methods m hm
        (fun names => methodCheck_false_of_oneway_outarg env names m hone
          arg ha hout) [])
  · intro rest hms h0 htype hph hvoid
    have hphb : (m.type.GetName == "ParcelableHolder") = false :=
      beq_eq_false_iff_ne.mpr hph
    have hvb : (m.type.GetName == "void") = false :=
      beq_eq_false_iff_ne.mpr hvoid
    have hmc : methodCheck env [] m =
        ⟨false, (m.type.CheckValid env).2 ++ [Diag.onewayNonVoid m.name], []⟩ := by
      simp [methodCheck, htype, hphb, hone, bne, hvb]
    simp only [AidlInterface.CheckValid, hms, h0, methodsLoop, hmc]
    simp

/-- A oneway method with an int return type. -/
def c7Method : AidlMethod :=
  ⟨locHere, true, "", simpleSpec "int", "foo", [], 0, false, true⟩

/-- An interface holding the offending oneway method. -/
def c7Interface : AidlInterface :=
  ⟨locHere, "IThing", "", "", [], [], [], [c7Method]⟩

/-- Witness for interface_oneway_restrictions: a oneway method returning
int fails interface validation with the diagnostic naming it. -/
theorem interface_oneway_restrictions_witness :
    (c7Interface.CheckValid testEnv).ok = false ∧
      Diag.onewayNonVoid "foo" ∈ (c7Interface.CheckValid testEnv).errors := by
  constructor
  · exact (interface_oneway_restrictions testEnv c7Interface c7Method
      (List.mem_cons_self _ _) rfl).1 (by decide)
  · exact (interface_oneway_restrictions testEnv c7Interface c7Method
      (List.mem_cons_self _ _) rfl).2.2 [] rfl rfl rfl (by decide) (by decide)

/-- The void return type specifier. -/
def voidSpec : AidlTypeSpecifier := simpleSpec "void"

/-- A void method named foo with one direction-less argument. -/
def fooMethod (loc : AidlLocation) (env : Env) (t : AidlTypeSpecifier)
    (argName : String) : AidlMethod :=
  ⟨loc, false, "", voidSpec, "foo",
   [AidlArgument.mkNoDirection env locHere t argName], 0, false, true⟩

/-- An interface with two methods named foo whose single arguments have
the two given types. -/
def twoFooInterface (env : Env) (loc1 loc2 : AidlLocation)
    (t1 t2 : AidlTypeSpecifier) : AidlInterface :=
  ⟨locHere, "IFoo", "", "", [], [], [],
   [fooMethod loc1 env t1 "a", fooMethod loc2 env t2 "b"]⟩

/-- A single well-behaved direction-less argument passes the argument
loop with no diagnostics. -/
theorem argumentsLoop_single_ok (env : Env) (m : AidlMethod)
    (hone : m.oneway = false) (t : AidlTypeSpecifier) (nm : String)
    (ht : t.CheckValid env = (true, []))
    (hph : (t.GetName == "ParcelableHolder") = false)
    (hco : (env.CanBeOutParameter t).1 = false)
    (hkw : IsJavaKeyword nm = false)
    (hpre : nm.startsWith "_aidl" = false) :
    argumentsLoop env m [AidlArgument.mkNoDirection env locHere t nm] [] =
      ⟨true, [], []⟩ := by
  simp [argumentsLoop, AidlArgument.mkNoDirection, AidlArgument.GetName,
    AidlArgument.GetType, AidlVariableDeclaration.mkNoDefault,
    AidlArgument.IsOut, AidlArgument.DirectionWasSpecified,
    AidlArgument.GetDirection, AidlDirection.IsOut, ht, hph, hco, hone,
    hkw, hpre,
    show (AidlDirection.inDir != AidlDirection.inDir) = false from rfl,
    show (AidlDirection.inDir == AidlDirection.inoutDir) = false from rfl]

/-- A foo method with a well-behaved argument passes its per-method
check when no method of that name was seen and its signature is not
reserved. -/
theorem methodCheck_foo_ok (env : Env) (loc : AidlLocation)
    (t : AidlTypeSpecifier) (nm : String)
    (names : List (String × AidlLocation))
    (ht : t.CheckValid env = (true, []))
    (hph : (t.GetName == "ParcelableHolder") = false)
    (hco : (env.CanBeOutParameter t).1 = false)
    (hkw : IsJavaKeyword nm = false)
    (hpre : nm.startsWith "_aidl" = false)
    (hlook : names.lookup "foo" = none)
    (hres : reservedMethodSignatures.contains
      ("foo(" ++ t.Signature ++ ")") = false) :
    methodCheck env names (fooMethod loc env t nm) = ⟨true, [], []⟩ := by
  have hargs := argumentsLoop_single_ok env (fooMethod loc env t nm) rfl t nm
    ht hph hco hkw hpre
  have hsig : (fooMethod loc env t nm).Signature =
      "foo(" ++ t.Signature ++ ")" := rfl
  have hres2 : "foo(" ++ t.Signature ++ ")" ∉ reservedMethodSignatures := by
    simpa using hres
  simp [methodCheck, hargs, hsig, hlook, hres2,
    show (fooMethod loc env t nm).type = voidSpec from rfl,
    show (fooMethod loc env t nm).oneway = false from rfl,
    show (fooMethod loc env t nm).arguments =
      [AidlArgument.mkNoDirection env locHere t nm] from rfl,
    show (fooMethod loc env t nm).name = "foo" from rfl,
    show voidSpec.CheckValid env = (true, []) from rfl,
    show voidSpec.GetName = "void" from rfl]

/-- A foo method hitting an existing name-map entry fails its per-method
check with the redefinition pair of diagnostics. -/
theorem methodCheck_foo_dup (env : Env) (loc prevLoc : AidlLocation)
    (t : AidlTypeSpecifier) (nm : String)
    (names : List (String × AidlLocation))
    (ht : t.CheckValid env = (true, []))
    (hph : (t.GetName == "ParcelableHolder") = false)
    (hco : (env.CanBeOutParameter t).1 = false)
    (hkw : IsJavaKeyword nm = false)
    (hpre : nm.startsWith "_aidl" = false)
    (hlook : names.lookup "foo" = some prevLoc) :
    methodCheck env names (fooMethod loc env t nm) =
      ⟨false, [Diag.redefineMethod "foo", Diag.previouslyDefinedHere prevLoc],
       []⟩ := by
  have hargs := argumentsLoop_single_ok env (fooMethod loc env t nm) rfl t nm
    ht hph hco hkw hpre
  simp [methodCheck, hargs, hlook,
    show (fooMethod loc env t nm).type = voidSpec from rfl,
    show (fooMethod loc env t nm).oneway = false from rfl,
    show (fooMethod loc env t nm).arguments =
      [AidlArgument.mkNoDirection env locHere t nm] from rfl,
    show (fooMethod loc env t nm).name = "foo" from rfl,
    show voidSpec.CheckValid env = (true, []) from rfl,
    show voidSpec.GetName = "void" from rfl]

/-- C1 (amended): AidlInterface::CheckValid detects duplicate methods by
name alone: two methods named foo fail validation whatever their
argument type lists, including different ones, and the diagnostics cite
the earlier definition location. -/
theorem interface_duplicate_method_by_name (env : Env)
    (loc1 loc2 : AidlLocation) (t1 t2 : AidlTypeSpecifier)
    (ht1 : t1.CheckValid env = (true, []))
    (ht2 : t2.CheckValid env = (true, []))
    (hph1 : (t1.GetName == "ParcelableHolder") = false)
    (hph2 : (t2.GetName == "ParcelableHolder") = false)
    (hco1 : (env.CanBeOutParameter t1).1 = false)
    (hco2 : (env.CanBeOutParameter t2).1 = false)
    (hres1 : reservedMethodSignatures.contains
      ("foo(" ++ t1.Signature ++ ")") = false) :
    (twoFooInterface env loc1 loc2 t1 t2).CheckValid env =
      ⟨false, [Diag.redefineMethod "foo", Diag.previouslyDefinedHere loc1],
       []⟩ := by
  have hm1 := methodCheck_foo_ok env loc1 t1 "a" [] ht1 hph1 hco1
    (by decide) (by decide) rfl hres1
  have hm2 := methodCheck_foo_dup env loc2 loc1 t2 "b" [("foo", loc1)] ht2
    hph2 hco2 (by decide) (by decide) rfl
  simp [AidlInterface.CheckValid, twoFooInterface, methodsLoop, hm1, hm2,
    show AidlDefinedType.CheckValid env interfaceSupported [] "IFoo" [] [] =
      (true, []) from rfl,
    show (fooMethod loc1 env t1 "a").name = "foo" from rfl,
    show (fooMethod loc1 env t1 "a").location = loc1 from rfl]

/-- The first definition site used in the closed counterexample. -/
def locA : AidlLocation := ⟨"f.aidl", 1, 1, 1, 10⟩

/-- The second definition site used in the closed counterexample. -/
def locB : AidlLocation := ⟨"f.aidl", 2, 1, 2, 10⟩

/-- C1 counterexample: foo(int) and foo(long) have different argument
type lists, yet AidlInterface::CheckValid rejects the pair with the
duplicate-method diagnostics, citing the earlier definition location. -/
theorem interface_overload_rejected :
    (simpleSpec "int").Signature ≠ (simpleSpec "long").Signature ∧
    (twoFooInterface testEnv locA locB (simpleSpec "int")
        (simpleSpec "long")).CheckValid testEnv =
      ⟨false, [Diag.redefineMethod "foo", Diag.previouslyDefinedHere locA],
       []⟩ := ⟨by decide, by rfl⟩

/-- Witness for interface_duplicate_method_by_name at concrete boolean
and byte argument types. -/
theorem interface_duplicate_method_by_name_witness :
    (twoFooInterface testEnv locA locB (simpleSpec "boolean")
        (simpleSpec "byte")).CheckValid testEnv =
      ⟨false, [Diag.redefineMethod "foo", Diag.previouslyDefinedHere locA],
       []⟩ :=
  interface_duplicate_method_by_name testEnv locA locB (simpleSpec "boolean")
    (simpleSpec "byte") rfl rfl rfl rfl rfl rfl (by decide)

/-- A generic List specifier with the given type parameters. -/
def listSpecOf (params : List AidlTypeSpecifier) : AidlTypeSpecifier :=
  .mk locHere "List" false (some params) "" [] "" none

/-- The rule sequence of AidlTypeSpecifier::CheckValid reduced on a
plain one-parameter List specifier: the contained type must be neither
an enum nor primitive, and must be an allowed builtin or a non-interface
defined type. -/
theorem listViolation_single (env : Env) (T : String) :
    typeSpecifierViolation env (listSpecOf [simpleSpec T]) =
      (if env.GetEnumDeclaration (simpleSpec T) || env.IsPrimitiveTypename T
       then some Diag.genericPrimitiveParam
       else if env.IsBuiltinTypename T then
         (if T != "String" && T != "IBinder" && T != "ParcelFileDescriptor"
          then some (Diag.listUnsupported T) else none)
       else if env.GetInterface (simpleSpec T) then
         some (Diag.listUnsupported T)
       else none) := by
  cases hk : env.TryGetDefinedType T with
  | none =>
    cases hp : env.IsPrimitiveTypename T with
    | true =>
      simp [typeSpecifierViolation, listSpecOf, simpleSpec,
        AidlTypeSpecifier.IsGeneric, AidlTypeSpecifier.typeParameters,
        AidlTypeSpecifier.GetTypeParameters, AidlTypeSpecifier.GetName,
        AidlTypeSpecifier.IsResolved, AidlTypeSpecifier.fullyQualifiedName,
        AidlTypeSpecifier.unresolvedName, AidlTypeSpecifier.IsArray,
        AidlTypeSpecifier.IsNullable, AidlTypeSpecifier.IsUtf8InCpp,
        AidlTypeSpecifier.annotations, hasAnnot, getAnnot,
        Env.GetEnumDeclaration, Env.GetInterface, hk, hp]
    | false =>
      simp [typeSpecifierViolation, listSpecOf, simpleSpec,
        AidlTypeSpecifier.IsGeneric, AidlTypeSpecifier.typeParameters,
        AidlTypeSpecifier.GetTypeParameters, AidlTypeSpecifier.GetName,
        AidlTypeSpecifier.IsResolved, AidlTypeSpecifier.fullyQualifiedName,
        AidlTypeSpecifier.unresolvedName, AidlTypeSpecifier.IsArray,
        AidlTypeSpecifier.IsNullable, AidlTypeSpecifier.IsUtf8InCpp,
        AidlTypeSpecifier.annotations, hasAnnot, getAnnot,
        Env.GetEnumDeclaration, Env.GetInterface, hk, hp]
      cases hb2 : env.IsBuiltinTypename T
      all_goals simp [hb2]
      by_cases hc : (¬T = "String" ∧ ¬T = "IBinder") ∧
          ¬T = "ParcelFileDescriptor" <;> simp [hc]
  | some k =>
    cases hp : env.IsPrimitiveTypename T with
    | true =>
      simp [typeSpecifierViolation, listSpecOf, simpleSpec,
        AidlTypeSpecifier.IsGeneric, AidlTypeSpecifier.typeParameters,
        AidlTypeSpecifier.GetTypeParameters, AidlTypeSpecifier.GetName,
        AidlTypeSpecifier.IsResolved, AidlTypeSpecifier.fullyQualifiedName,
        AidlTypeSpecifier.unresolvedName, AidlTypeSpecifier.IsArray,
        AidlTypeSpecifier.IsNullable, AidlTypeSpecifier.IsUtf8InCpp,
        AidlTypeSpecifier.annotations, hasAnnot, getAnnot,
        Env.GetEnumDeclaration, Env.GetInterface, hk, hp]
    | false =>
      cases hke : k.isEnumKind with
      | true =>
        simp [typeSpecifierViolation, listSpecOf, simpleSpec,
          AidlTypeSpecifier.IsGeneric, AidlTypeSpecifier.typeParameters,
          AidlTypeSpecifier.GetTypeParameters, AidlTypeSpecifier.GetName,
          AidlTypeSpecifier.IsResolved, AidlTypeSpecifier.fullyQualifiedName,
          AidlTypeSpecifier.unresolvedName, AidlTypeSpecifier.IsArray,
          AidlTypeSpecifier.IsNullable, AidlTypeSpecifier.IsUtf8InCpp,
          AidlTypeSpecifier.annotations, hasAnnot, getAnnot,
          Env.GetEnumDeclaration, Env.GetInterface, hk, hp, hke]
      | false =>
        simp [typeSpecifierViolation, listSpecOf, simpleSpec,
          AidlTypeSpecifier.IsGeneric, AidlTypeSpecifier.typeParameters,
          AidlTypeSpecifier.GetTypeParameters, AidlTypeSpecifier.GetName,
          AidlTypeSpecifier.IsResolved, AidlTypeSpecifier.fullyQualifiedName,
          AidlTypeSpecifier.unresolvedName, AidlTypeSpecifier.IsArray,
          AidlTypeSpecifier.IsNullable, AidlTypeSpecifier.IsUtf8InCpp,
          AidlTypeSpecifier.annotations, hasAnnot, getAnnot,
          Env.GetEnumDeclaration, Env.GetInterface, hk, hp, hke]
        cases hb2 : env.IsBuiltinTypename T
        all_goals simp [hb2]
        · cases hki : k.isInterfaceKind <;> simp [hki]
        · by_cases hc : (¬T = "String" ∧ ¬T = "IBinder") ∧
              ¬T = "ParcelFileDescriptor" <;> simp [hc]

/-- A plain generic List specifier passes CheckValid iff no rule of the
body is violated (its empty annotation set always passes). -/
theorem listSpec_CheckValid_iff (env : Env) (ps : List AidlTypeSpecifier) :
    ((listSpecOf ps).CheckValid env).1 = true ↔
      typeSpecifierViolation env (listSpecOf ps) = none := by
  have hann : AidlAnnotatable.CheckValid env typeSpecifierSupported
      (listSpecOf ps).annotations = (true, []) := rfl
  simp only [AidlTypeSpecifier.CheckValid, hann]
  cases hv : typeSpecifierViolation env (listSpecOf ps) <;> simp [hv]

/-- A List specifier with two or more type parameters always has a
violation: either a primitive or enum parameter, or the parameter-count
rule. -/
theorem listViolation_multi (env : Env) (t1 t2 : AidlTypeSpecifier)
    (ts : List AidlTypeSpecifier) :
    (typeSpecifierViolation env (listSpecOf (t1 :: t2 :: ts))).isSome = true := by
  have hlen : 1 < ts.length + 1 + 1 := by omega
  simp [typeSpecifierViolation, listSpecOf, AidlTypeSpecifier.IsGeneric,
    AidlTypeSpecifier.typeParameters, AidlTypeSpecifier.GetTypeParameters,
    AidlTypeSpecifier.GetName, AidlTypeSpecifier.IsResolved,
    AidlTypeSpecifier.fullyQualifiedName, AidlTypeSpecifier.unresolvedName,
    hlen]
  split
  · simp
  · rename_i heq
    rw [ite_eq_iff] at heq
    rcases heq with ⟨_, h5⟩ | ⟨_, h5⟩ <;> exact Option.noConfusion h5

/-- C4: for a generic List with one type parameter named T and no
annotations, CheckValid succeeds iff T is one of the builtins String,
IBinder, ParcelFileDescriptor or a user-defined non-interface, non-enum
type, under a type-name table in which T is resolvable, the three
allowed builtins are neither primitive nor user-defined, and a
user-defined T is neither primitive nor builtin; a List with more than
one type parameter always fails. -/
theorem list_contained_type_rule (env : Env) (T : String)
    (hres : env.IsBuiltinTypename T = true ∨
      (env.TryGetDefinedType T).isSome = true)
    (hbuiltins : ∀ x, x ∈ ["String", "IBinder", "ParcelFileDescriptor"] →
      env.IsPrimitiveTypename x = false ∧ env.TryGetDefinedType x = none)
    (hdefined : ∀ k, env.TryGetDefinedType T = some k →
      env.IsPrimitiveTypename T = false ∧ env.IsBuiltinTypename T = false) :
    (((listSpecOf [simpleSpec T]).CheckValid env).1 = true ↔
      (T = "String" ∨ T = "IBinder" ∨ T = "ParcelFileDescriptor" ∨
       ∃ k, env.TryGetDefinedType T = some k ∧ k.isInterfaceKind = false ∧
         k.isEnumKind = false))
    ∧ (∀ t1 t2 ts, ((listSpecOf (t1 :: t2 :: ts)).CheckValid env).1 = false) := by
  constructor
  · rw [listSpec_CheckValid_iff, listViolation_single]
    have hgn : (simpleSpec T).GetName = T := rfl
    cases hk : env.TryGetDefinedType T with
    | none =>
      have hb : env.IsBuiltinTypename T = true := by
        rcases hres with hb | hsome
        · exact hb
        · rw [hk] at hsome; simp at hsome
      have henum : env.GetEnumDeclaration (simpleSpec T) = false := by
        simp [Env.GetEnumDeclaration, hgn, hk]
      cases hp : env.IsPrimitiveTypename T with
      | true =>
        simp only [henum, hp, Bool.or_true, if_true, reduceCtorEq, false_iff]
        rintro (h1 | h2 | h3 | ⟨k, hk2, _⟩)
        · subst h1; exact absurd hp (by simp [(hbuiltins "String" (by simp)).1])
        · subst h2; exact absurd hp (by simp [(hbuiltins "IBinder" (by simp)).1])
        · subst h3
          exact absurd hp (by simp [(hbuiltins "ParcelFileDescriptor" (by simp)).1])
        · exact hk2
      | false =>
        simp only [henum, hp, Bool.or_self, Bool.false_eq_true, if_false, hb,
          if_true]
        by_cases hS : T = "String"
        · simp [hS]
        · by_cases hI : T = "IBinder"
          · simp [hI, bne]
          · by_cases hP : T = "ParcelFileDescriptor"
            · simp [hP, bne]
            · have hcond : (T != "String" && T != "IBinder" &&
                  T != "ParcelFileDescriptor") = true := by
                simp [bne, hS, hI, hP]
              simp only [hcond, if_true, reduceCtorEq, false_iff]
              rintro (h1 | h2 | h3 | ⟨k, hk2, _⟩)
              · exact hS h1
              · exact hI h2
              · exact hP h3
              · exact hk2
    | some k =>
      rcases hdefined k hk with ⟨hp, hb⟩
      have hTnot : ∀ x, x ∈ ["String", "IBinder", "ParcelFileDescriptor"] →
          T ≠ x := by
        intro x hx hTx
        have h2 := (hbuiltins x hx).2
        rw [hTx, h2] at hk
        exact Option.noConfusion hk
      have henum : env.GetEnumDeclaration (simpleSpec T) = k.isEnumKind := by
        simp [Env.GetEnumDeclaration, hgn, hk]
      have hiface : env.GetInterface (simpleSpec T) = k.isInterfaceKind := by
        simp [Env.GetInterface, hgn, hk]
      cases hke : k.isEnumKind with
      | true =>
        simp only [henum, hke, hp, Bool.true_or, if_true, reduceCtorEq,
          false_iff]
        rintro (h1 | h2 | h3 | ⟨k2, hk2, _, hke2⟩)
        · exact hTnot "String" (by simp) h1
        · exact hTnot "IBinder" (by simp) h2
        · exact hTnot "ParcelFileDescriptor" (by simp) h3
        · injection hk2 with h4
          simp [← h4, hke] at hke2
      | false =>
        simp only [henum, hke, hp, Bool.or_self, Bool.false_eq_true, if_false,
          hb]
        cases hki : k.isInterfaceKind with
        | true =>
          simp only [hiface, hki, if_true, reduceCtorEq, false_iff]
          rintro (h1 | h2 | h3 | ⟨k2, hk2, hki2, _⟩)
          · exact hTnot "String" (by simp) h1
          · exact hTnot "IBinder" (by simp) h2
          · exact hTnot "ParcelFileDescriptor" (by simp) h3
          · injection hk2 with h4
            simp [← h4, hki] at hki2
        | false =>
          simp only [hiface, hki, Bool.false_eq_true, if_false, true_iff]
          exact Or.inr (Or.inr (Or.inr ⟨k, rfl, hki, hke⟩))
  · intro t1 t2 ts
    cases h : ((listSpecOf (t1 :: t2 :: ts)).CheckValid env).1 with
    | false => rfl
    | true =>
      exfalso
      have hnone := (listSpec_CheckValid_iff env (t1 :: t2 :: ts)).mp h
      have hsome := listViolation_multi env t1 t2 ts
      rw [hnone] at hsome
      exact Bool.noConfusion hsome

/-- Witness for list_contained_type_rule: under the concrete test table,
List of String validates and a two-parameter List fails. -/
theorem list_contained_type_rule_witness :
    ((listSpecOf [simpleSpec "String"]).CheckValid testEnv).1 = true ∧
    ((listSpecOf [simpleSpec "int", simpleSpec "int"]).CheckValid
      testEnv).1 = false := by
  have h := list_contained_type_rule testEnv "String" (Or.inl (by decide))
    (by decide)
    (fun k hk => by
      rw [show testEnv.TryGetDefinedType "String" = none from rfl] at hk
      exact Option.noConfusion hk)
  exact ⟨h.1.mpr (Or.inl rfl), h.2 (simpleSpec "int") (simpleSpec "int") []⟩

/-- A union field of the enum type E with no explicit default. -/
def c5FieldNoDefault : AidlVariableDeclaration :=
  ⟨locHere, simpleSpec "E", "x", false, none⟩

/-- A union whose first (and only) field is a non-nullable enum without
an explicit default. -/
def c5UnionNoDefault : AidlUnionDecl :=
  ⟨locHere, "U", "", "", none, [], [c5FieldNoDefault], []⟩

/-- The same field with an explicit default value. -/
def c5FieldWithDefault (dv : AidlConstVal) : AidlVariableDeclaration :=
  ⟨locHere, simpleSpec "E", "x", true, some dv⟩

/-- The same union with an explicit default value on the first field. -/
def c5UnionWithDefault (dv : AidlConstVal) : AidlUnionDecl :=
  ⟨locHere, "U", "", "", none, [], [c5FieldWithDefault dv], []⟩

/-- A parameter-less nullable annotation instance. -/
def nullableAnnotInst : AidlAnnot := ⟨locHere, nullableSchema, []⟩

/-- The enum type E marked nullable. -/
def nullableESpec : AidlTypeSpecifier :=
  .mk locHere "E" false none "" [nullableAnnotInst] "" none

/-- The first field marked nullable instead of given a default. -/
def c5FieldNullable : AidlVariableDeclaration :=
  ⟨locHere, nullableESpec, "x", false, none⟩

/-- The union whose first field is the nullable enum field. -/
def c5UnionNullable : AidlUnionDecl :=
  ⟨locHere, "U", "", "", none, [], [c5FieldNullable], []⟩

/-- C5: a union whose first field has a non-array, non-nullable enum
type and no explicit default fails CheckValid with the first-member
diagnostic; with an explicit (valid, renderable) default value it
validates; and with the field marked nullable the first-member check is
passed (the field has a useful default and neither first-member
diagnostic is emitted), the nullable-enum type error firing instead. -/
theorem union_first_member_default_rule (env : Env) (dv : AidlConstVal)
    (henum : env.TryGetDefinedType "E" = some .enumKind)
    (hprim : env.IsPrimitiveTypename "E" = false)
    (hdv : env.cvCheckValid dv = true)
    (hvs : (env.cvValueString dv (simpleSpec "E") == "") = false) :
    (c5UnionNoDefault.CheckValid env =
      (false, [Diag.unionFirstMemberEnumNoDefault]))
    ∧ ((c5UnionWithDefault dv).CheckValid env).1 = true
    ∧ c5FieldNullable.HasUsefulDefaultValue = true
    ∧ Diag.unionFirstMemberEnumNoDefault ∉ (c5UnionNullable.CheckValid env).2
    ∧ Diag.unionFirstMemberArrayNoDefault ∉ (c5UnionNullable.CheckValid env).2 := by
  have hspecE : (simpleSpec "E").CheckValid env = (true, []) := rfl
  have hge : env.GetEnumDeclaration (simpleSpec "E") = true := by
    simp [Env.GetEnumDeclaration, henum,
      show (simpleSpec "E").GetName = "E" from rfl,
      AidlDefinedKind.isEnumKind]
  have h1 : c5UnionNoDefault.CheckValid env =
      (false, [Diag.unionFirstMemberEnumNoDefault]) := by
    simp [AidlUnionDecl.CheckValid, c5UnionNoDefault,
      show parcelableCheckValidCore env unionSupported "U" []
        [c5FieldNoDefault] [] none = (true, []) from rfl,
      show CheckValidForGetterNames "U" [c5FieldNoDefault] [] =
        (true, []) from rfl,
      show (c5FieldNoDefault.type.GetName == "ParcelableHolder") =
        false from rfl,
      show c5FieldNoDefault.HasUsefulDefaultValue = false from rfl,
      show c5FieldNoDefault.type = simpleSpec "E" from rfl,
      show (simpleSpec "E").IsArray = false from rfl,
      show ((simpleSpec "E").GetName == "ParcelableHolder") = false from rfl,
      show (simpleSpec "E").GetName = "E" from rfl,
      hge]
  have hfield2 : (c5FieldWithDefault dv).CheckValid env = (true, []) := by
    simp [AidlVariableDeclaration.CheckValid, c5FieldWithDefault,
      AidlVariableDeclaration.ValueString, hspecE, hdv, hvs,
      show ((simpleSpec "E").GetName == "void") = false from rfl]
  have hcore2 : parcelableCheckValidCore env unionSupported "U" []
      [c5FieldWithDefault dv] [] none = (true, []) := by
    simp [parcelableCheckValidCore, AidlDefinedType.CheckValid,
      AidlAnnotatable.CheckValid, annotsLoop, duplicatesLoop, hasAnnot,
      getAnnot, CheckValidWithMembers, fieldNamesLoop, immutableFieldsLoop,
      constantsLoop, parameterizableStringCheckValid, hfield2]
  have h2 : ((c5UnionWithDefault dv).CheckValid env).1 = true := by
    simp [AidlUnionDecl.CheckValid, c5UnionWithDefault, hcore2,
      show CheckValidForGetterNames "U" [c5FieldWithDefault dv] [] =
        (true, []) from rfl,
      show (c5FieldWithDefault dv).HasUsefulDefaultValue = true from rfl,
      show ((c5FieldWithDefault dv).type.GetName == "ParcelableHolder") =
        false from rfl,
      show (c5FieldWithDefault dv).type = simpleSpec "E" from rfl,
      show ((simpleSpec "E").GetName == "ParcelableHolder") = false from rfl,
      show (simpleSpec "E").GetName = "E" from rfl]
  have hnullspec : nullableESpec.CheckValid env = (false, [Diag.nullableEnum]) := by
    simp [AidlTypeSpecifier.CheckValid, typeSpecifierViolation,
      show AidlAnnotatable.CheckValid env typeSpecifierSupported
        nullableESpec.annotations = (true, []) from rfl,
      show nullableESpec.IsGeneric = false from rfl,
      show nullableESpec.IsUtf8InCpp = false from rfl,
      show nullableESpec.GetName = "E" from rfl,
      show nullableESpec.IsArray = false from rfl,
      show nullableESpec.IsNullable = true from rfl,
      henum, hprim, AidlDefinedKind.isEnumKind]
  have hfield3 : c5FieldNullable.CheckValid env = (false, [Diag.nullableEnum]) := by
    simp [AidlVariableDeclaration.CheckValid, c5FieldNullable, hnullspec,
      show (nullableESpec.GetName == "void") = false from rfl]
  have hcore3 : parcelableCheckValidCore env unionSupported "U" []
      [c5FieldNullable] [] none = (false, [Diag.nullableEnum]) := by
    simp [parcelableCheckValidCore, AidlDefinedType.CheckValid,
      AidlAnnotatable.CheckValid, annotsLoop, duplicatesLoop, hasAnnot,
      getAnnot, CheckValidWithMembers, fieldNamesLoop, immutableFieldsLoop,
      constantsLoop, parameterizableStringCheckValid, hfield3]
  have h3 : c5UnionNullable.CheckValid env = (false, [Diag.nullableEnum]) := by
    simp [AidlUnionDecl.CheckValid, c5UnionNullable, hcore3]
  refine ⟨h1, h2, rfl, ?_, ?_⟩
  · rw [h3]; simp
  · rw [h3]; simp

/-- A table in which E is an enum declaration. -/
def c5Env : Env :=
  { testEnv with TryGetDefinedType := fun n =>
      if n == "E" then some .enumKind else none }

/-- Witness for union_first_member_default_rule: under the concrete
table the default-less enum-first union fails and the explicit-default
union validates. -/
theorem union_first_member_default_rule_witness :
    (AidlUnionDecl.CheckValid c5Env c5UnionNoDefault).1 = false ∧
    ((c5UnionWithDefault (.integral locHere "1")).CheckValid c5Env).1 = true := by
  have h := union_first_member_default_rule c5Env (.integral locHere "1") rfl
    (by decide) rfl rfl
  exact ⟨by rw [h.1], h.2.1⟩
